import Mathlib

/-!
Verification of the openclaw `bridge-gpt-pro` request-lifecycle core against
its natural-language specification.

The TypeScript sources are shallowly embedded: JS strings are modelled as
`List Char` (sequences of Unicode code points; JS UTF-16 code-unit indexing
agrees with this on all texts handled here, which stay within the BMP), JS
numbers that only ever hold integers are modelled as `Nat`/`Int`, and the
rate limiter's fractional token arithmetic is modelled exactly over `ℚ`
(IEEE-754 rounding is out of scope; all compared quantities here are reached
by short exact computations).  Fallible code returns `Except`/`Option`.
-/

namespace Openclaw

/-- JS strings, as sequences of Unicode code points. -/
abbrev Str := List Char

/-- Membership of a code point in the JS regex `\s` class (ECMA-262
WhiteSpace ∪ LineTerminator: TAB, LF, VT, FF, CR, SP, NBSP, OGHAM SP,
U+2000–U+200A, LS, PS, NNBSP, MMSP, IDEOGRAPHIC SP, BOM). -/
def jsWsCode (n : Nat) : Bool :=
  n == 9 || n == 10 || n == 11 || n == 12 || n == 13 || n == 32 ||
  n == 0xa0 || n == 0x1680 || (0x2000 ≤ n && n ≤ 0x200a) ||
  n == 0x2028 || n == 0x2029 || n == 0x202f || n == 0x205f ||
  n == 0x3000 || n == 0xfeff

/-- JS whitespace predicate on characters (the regex `\s` class, also the
class used by `String.prototype.trim`). -/
def jsWs (c : Char) : Bool := jsWsCode c.toNat

/-- Code-point mapping of `String.prototype.toLowerCase` restricted to the
ranges that occur in this codebase's comparisons: ASCII A–Z and the Latin-1
uppercase letters À–Þ (U+00C0–U+00DE, excluding ×). All other code points
are fixed. -/
def loCode (n : Nat) : Nat :=
  if 65 ≤ n && n ≤ 90 then n + 32
  else if 192 ≤ n && n ≤ 222 && n != 215 then n + 32
  else n

/-- `toLowerCase` on one character. -/
def jsToLower (c : Char) : Char := Char.ofNat (loCode c.toNat)

/-- `toLowerCase` on a string. -/
def toLowerStr (s : Str) : Str := s.map jsToLower

/-- The JS regex `\w` (word character) class. -/
def isWordChar (c : Char) : Bool :=
  (48 ≤ c.toNat && c.toNat ≤ 57) || (65 ≤ c.toNat && c.toNat ≤ 90) ||
  (97 ≤ c.toNat && c.toNat ≤ 122) || c.toNat == 95

/-- The JS regex `\d` class. -/
def isDigitChar (c : Char) : Bool := 48 ≤ c.toNat && c.toNat ≤ 57

/-- `String.prototype.trim`: strip leading and trailing `\s`-class chars. -/
def jsTrim (s : Str) : Str :=
  ((s.dropWhile jsWs).reverse.dropWhile jsWs).reverse

/-- Helper for `collapseWs`: `inRun` records whether the previous character
was part of a whitespace run already emitted as a single space. -/
def collapseWsAux : Bool → Str → Str
  | _, [] => []
  | inRun, c :: t =>
    if jsWs c then
      if inRun then collapseWsAux true t else ' ' :: collapseWsAux true t
    else c :: collapseWsAux false t

/-- `.replace(/\s+/g, " ")`: every maximal whitespace run becomes one space. -/
def collapseWs (s : Str) : Str := collapseWsAux false s

/-- `String.prototype.includes` (substring containment). -/
def includesL : Str → Str → Bool
  | [], needle => needle.isEmpty
  | c :: t, needle => needle.isPrefixOf (c :: t) || includesL t needle

/-- Helper for `jsIndexOf`, carrying the current position. -/
def indexOfAux : Str → Str → Nat → Option Nat
  | [], needle, i => if needle.isEmpty then some i else none
  | c :: t, needle, i =>
    if needle.isPrefixOf (c :: t) then some i else indexOfAux t needle (i + 1)

/-- `String.prototype.indexOf`, as `none` for -1. -/
def jsIndexOf (hay needle : Str) : Option Nat := indexOfAux hay needle 0

/-- Helper for `jsLastIndexOf`, carrying position and best match so far. -/
def lastIndexOfAux : Str → Str → Nat → Option Nat → Option Nat
  | [], needle, i, best => if needle.isEmpty then some i else best
  | c :: t, needle, i, best =>
    lastIndexOfAux t needle (i + 1)
      (if needle.isPrefixOf (c :: t) then some i else best)

/-- `String.prototype.lastIndexOf`, as `none` for -1. -/
def jsLastIndexOf (hay needle : Str) : Option Nat := lastIndexOfAux hay needle 0 none

/-- Engine of `replaceAllL`, structurally recursive on a fuel that starts at
the haystack's length (each step consumes at least one haystack character,
so the fuel never runs out before the haystack does). -/
def replaceAllFuel : Nat → Str → Str → Str → Str
  | 0, hay, _, _ => hay
  | _ + 1, [], _, _ => []
  | fuel + 1, c :: t, needle, repl =>
    if needle ≠ [] ∧ needle.isPrefixOf (c :: t) then
      repl ++ replaceAllFuel fuel (t.drop (needle.length - 1)) needle repl
    else c :: replaceAllFuel fuel t needle repl

/-- `String.prototype.replaceAll` with a non-empty string pattern
(left-to-right, non-overlapping). With an empty pattern the callers in this
codebase never invoke it; the definition then leaves the string unchanged. -/
def replaceAllL (hay needle repl : Str) : Str :=
  replaceAllFuel hay.length hay needle repl

/-- `String.prototype.replace` with a string pattern (first occurrence only). -/
def replaceOneL : Str → Str → Str → Str
  | [], _, _ => []
  | c :: t, needle, repl =>
    if needle.isPrefixOf (c :: t) then repl ++ (c :: t).drop needle.length
    else c :: replaceOneL t needle repl

/-- `.split("\n")` (JS keeps empty segments). -/
def splitNl (s : Str) : List Str := s.splitOn '\n'

/-- `.join("\n")`. -/
def joinNl (ls : List Str) : Str := List.intercalate ['\n'] ls

/-- The first segment of `.split(/\r?\n/)`: everything before the first LF,
minus one immediately preceding CR. -/
def firstLineCrLf (s : Str) : Str :=
  let pre := s.takeWhile (fun c => c ≠ '\n')
  if pre.length < s.length then
    match pre.reverse with
    | '\r' :: r => r.reverse
    | _ => pre
  else pre

/-- Case-insensitive literal eater: consumes `lit` (given in lowercase) from
the head of `cs`, comparing via `jsToLower`; returns the rest. -/
def eatLitCI : Str → Str → Option Str
  | [], cs => some cs
  | _ :: _, [] => none
  | l :: ls, c :: cs => if jsToLower c == l then eatLitCI ls cs else none

/-- Case-sensitive literal eater. -/
def eatLit : Str → Str → Option Str
  | [], cs => some cs
  | _ :: _, [] => none
  | l :: ls, c :: cs => if c == l then eatLit ls cs else none

/-- Regex `\s+`: requires at least one whitespace char, consumes the run. -/
def eatWs1 : Str → Option Str
  | [] => none
  | c :: t => if jsWs c then some (t.dropWhile jsWs) else none

/-- Regex `\d+`: requires at least one digit, consumes the run. -/
def eatDigits1 : Str → Option Str
  | [] => none
  | c :: t => if isDigitChar c then some (t.dropWhile isDigitChar) else none

/-! ## `src/ui/extract.ts` -/

/-- The closed error-code set of `src/errors.ts` (`BridgeErrorCode`). -/
inductive BridgeCode
  | app_not_running | accessibility_denied | ui_element_not_found
  | ui_reset_failed | ui_error | usage_cap | rate_limited_by_chatgpt
  | captcha | network_error | auth_required | conversation_not_found
  | file_context_invalid | file_context_access_denied
  | file_context_not_found | file_context_unsupported
  | prompt_too_large | queue_full | timeout | unknown
deriving DecidableEq, Repr

/-- A `BridgeError` as far as the verified core inspects it: its code, its
message, the `details.reason` field when one is set, and the optional
`retryAfterSec` hint. -/
structure BridgeErr where
  code : BridgeCode
  message : String
  reason : Option String := none
  retryAfterSec : Option Int := none
deriving DecidableEq, Repr

deriving instance DecidableEq for Except

/-- The glyph class of `NON_MEANINGFUL_GLYPHS_REGEX`
(`/[￼​-‏⁠﻿]/g`). -/
def isNonMeaningfulGlyph (c : Char) : Bool :=
  c.toNat == 0xfffc || (0x200b ≤ c.toNat && c.toNat ≤ 0x200f) ||
  c.toNat == 0x2060 || c.toNat == 0xfeff

/-- `stripNonMeaningfulGlyphs`. -/
def stripNonMeaningfulGlyphs (s : Str) : Str :=
  s.filter (fun c => !(isNonMeaningfulGlyph c))

/-- `normalizeLine`: strip glyphs, trim, lowercase, collapse whitespace. -/
def normalizeLine (line : Str) : Str :=
  collapseWs (toLowerStr (jsTrim (stripNonMeaningfulGlyphs line)))

/-- `UI_NOISE_LABELS`. -/
def uiNoiseLabels : List Str :=
  ["Activer/Désactiver La Barre Latérale".toList,
   "Nouveau chat".toList,
   "Partager".toList,
   "Déplacer vers une nouvelle fenêtre".toList,
   "Toggle sidebar".toList,
   "New chat".toList,
   "Share".toList,
   "Move to new window".toList]

/-- `UI_NOISE_LINES` (the two French entries contain U+0027 and U+2019
apostrophes, built with `Char.ofNat`). -/
def uiNoiseLines : List Str :=
  ["pro".toList,
   "affordance".toList,
   "writing tools".toList,
   "outils d".toList ++ [Char.ofNat 39] ++ "écriture".toList,
   "outils d".toList ++ [Char.ofNat 0x2019] ++ "ecriture".toList]

/-- `AX_DECORATION_LABELS`. -/
def axDecorationLabels : List Str :=
  ["texte".toList, "text".toList, "static text".toList]

/-- `isUiNoiseLine`. -/
def isUiNoiseLine (line : Str) : Bool := uiNoiseLines.contains (normalizeLine line)

/-- `normalizeForEchoCompare`: strip glyphs, CRLF→LF, collapse whitespace, trim. -/
def normalizeForEchoCompare (v : Str) : Str :=
  jsTrim (collapseWs (replaceAllL (stripNonMeaningfulGlyphs v) "\r\n".toList "\n".toList))

/-- Token alphabet for the anchored `THINKING_PATTERNS` regexes. -/
inductive PatTok
  | lit (s : Str)
  | ws1
  | digits1
  | optChar (c : Char)

/-- Matcher for an anchored token sequence (case-insensitive literals,
`\s+`, `\d+`, one optional trailing character); must consume the input. -/
def matchToks : List PatTok → Str → Bool
  | [], cs => cs.isEmpty
  | .lit s :: rest, cs =>
    match eatLitCI s cs with
    | some r => matchToks rest r
    | none => false
  | .ws1 :: rest, cs =>
    match eatWs1 cs with
    | some r => matchToks rest r
    | none => false
  | .digits1 :: rest, cs =>
    match eatDigits1 cs with
    | some r => matchToks rest r
    | none => false
  | .optChar c :: rest, cs =>
    (match cs with
     | c' :: r => if jsToLower c' == c then matchToks rest r else false
     | [] => false) || matchToks rest cs

/-- `THINKING_PATTERNS`: each regex is `^\s*…\s*$` (case-insensitive), so a
line matches iff its `\s`-trim matches the core token sequence. -/
def thinkingPatternMatch (line : Str) : Bool :=
  let t := jsTrim line
  matchToks [.lit "thinking".toList] t ||
  matchToks [.lit "réflexion".toList] t ||
  matchToks [.lit "thinking".toList, .ws1, .lit "for".toList, .ws1, .digits1,
             .ws1, .lit "second".toList, .optChar 's'] t ||
  matchToks [.lit "réflexion".toList, .ws1, .lit "pendant".toList, .ws1, .digits1,
             .ws1, .lit "seconde".toList, .optChar 's'] t ||
  matchToks [.lit "thought".toList, .ws1, .lit "for".toList, .ws1, .digits1,
             .ws1, .lit "second".toList, .optChar 's'] t ||
  matchToks [.lit "a".toList, .ws1, .lit "réfléchi".toList, .ws1, .lit "pendant".toList,
             .ws1, .digits1, .ws1, .lit "seconde".toList, .optChar 's'] t

/-- `isBridgeFileBeginLine`: `/^---\s*begin file:/i` on the trimmed line. -/
def isBridgeFileBeginLine (line : Str) : Bool :=
  (do
    let r1 ← eatLit "---".toList (jsTrim line)
    eatLitCI "begin file:".toList (r1.dropWhile jsWs)).isSome

/-- `isBridgeFileEndLine`: `/^---\s*end file:/i` on the trimmed line. -/
def isBridgeFileEndLine (line : Str) : Bool :=
  (do
    let r1 ← eatLit "---".toList (jsTrim line)
    eatLitCI "end file:".toList (r1.dropWhile jsWs)).isSome

/-- `/^files:\s*\d+$/i` on an (already trimmed) line. -/
def filesCountLine (t : Str) : Bool :=
  (do
    let r1 ← eatLitCI "files:".toList t
    let r2 ← eatDigits1 (r1.dropWhile jsWs)
    if r2.isEmpty then some () else none).isSome

/-- `/^path:\s+/i` on an (already trimmed) line. -/
def pathPrefLine (t : Str) : Bool :=
  (do
    let r1 ← eatLitCI "path:".toList t
    eatWs1 r1).isSome

/-- `isBridgeFileContextLine`. -/
def isBridgeFileContextLine (line : Str) : Bool :=
  let trimmed := jsTrim line
  let lowered := normalizeLine trimmed
  lowered == "[file_context]".toList ||
  lowered == "[/file_context]".toList ||
  "the following file contents were injected by the local bridge".toList.isPrefixOf lowered ||
  "treat them as authoritative snapshots of the local filesystem".toList.isPrefixOf lowered ||
  filesCountLine trimmed ||
  isBridgeFileBeginLine trimmed ||
  isBridgeFileEndLine trimmed ||
  pathPrefLine trimmed

/-- `dropWhile` never lengthens a list. -/
theorem dropWhile_length_le (p : Char → Bool) : ∀ l : Str, (l.dropWhile p).length ≤ l.length := by
  intro l
  induction l with
  | nil => simp
  | cons c t ih =>
    simp only [List.dropWhile]
    split
    · exact Nat.le_succ_of_le ih
    · simp

/-- Space-or-tab predicate for `/[ \t]{2,}/g`. -/
def isSpaceTab (c : Char) : Bool := c == ' ' || c == '\t'

/-- `.replace(/[ \t]{2,}/g, " ")`: runs of two or more spaces/tabs collapse
to a single space; a lone space or tab is left as is. -/
def collapseSpaceTabFuel : Nat → Str → Str
  | 0, s => s
  | _ + 1, [] => []
  | _ + 1, [c] => [c]
  | fuel + 1, c :: c2 :: t =>
    if isSpaceTab c then
      if isSpaceTab c2 then ' ' :: collapseSpaceTabFuel fuel ((c2 :: t).dropWhile isSpaceTab)
      else c :: collapseSpaceTabFuel fuel (c2 :: t)
    else c :: collapseSpaceTabFuel fuel (c2 :: t)

/-- `.replace(/[ \t]{2,}/g, " ")` (fuel variant of the scanner; the fuel
starts at the string's length and each step consumes at least one char). -/
def collapseSpaceTab (s : Str) : Str := collapseSpaceTabFuel s.length s

/-- Eat a literal dot. -/
def eatDot : Str → Option Str
  | '.' :: r => some r
  | _ => none

/-- The regex `\b` context after a match: next char absent or not `\w`. -/
def wordBoundaryOk : Str → Bool
  | c :: _ => !(isWordChar c)
  | [] => true

/-- Matcher for one occurrence of `\bChatGPT\s+\d+\.\d+\b` starting at the
head of `cs` (the leading `\b` is checked by the caller); returns the rest
of the string after the match. -/
def chatGptTagAt (cs : Str) : Option Str := do
  let r1 ← eatLit "ChatGPT".toList cs
  let r2 ← eatWs1 r1
  let r3 ← eatDigits1 r2
  let r3d ← eatDot r3
  let r4 ← eatDigits1 r3d
  if wordBoundaryOk r4 then some r4 else none

/-- `eatLit` consumes exactly the literal's length. -/
theorem eatLit_length : ∀ {l cs r : Str}, eatLit l cs = some r →
    r.length + l.length = cs.length := by
  intro l
  induction l with
  | nil => intro cs r h; simp [eatLit] at h; simp [h]
  | cons x xs ih =>
    intro cs r h
    match cs with
    | [] => simp [eatLit] at h
    | c :: t =>
      simp only [eatLit] at h
      split at h
      · have := ih h; simp only [List.length_cons]; omega
      · exact absurd h (by simp)

/-- `eatLitCI` consumes exactly the literal's length. -/
theorem eatLitCI_length : ∀ {l cs r : Str}, eatLitCI l cs = some r →
    r.length + l.length = cs.length := by
  intro l
  induction l with
  | nil => intro cs r h; simp [eatLitCI] at h; simp [h]
  | cons x xs ih =>
    intro cs r h
    match cs with
    | [] => simp [eatLitCI] at h
    | c :: t =>
      simp only [eatLitCI] at h
      split at h
      · have := ih h; simp only [List.length_cons]; omega
      · exact absurd h (by simp)

/-- `eatWs1` strictly shortens the input. -/
theorem eatWs1_length {cs r : Str} (h : eatWs1 cs = some r) :
    r.length < cs.length := by
  match cs with
  | [] => simp [eatWs1] at h
  | c :: t =>
    simp only [eatWs1] at h
    split at h
    · cases h
      have := dropWhile_length_le jsWs t
      simp only [List.length_cons]; omega
    · exact absurd h (by simp)

/-- `eatDigits1` strictly shortens the input. -/
theorem eatDigits1_length {cs r : Str} (h : eatDigits1 cs = some r) :
    r.length < cs.length := by
  match cs with
  | [] => simp [eatDigits1] at h
  | c :: t =>
    simp only [eatDigits1] at h
    split at h
    · cases h
      have := dropWhile_length_le isDigitChar t
      simp only [List.length_cons]; omega
    · exact absurd h (by simp)

/-- `eatDot` strictly shortens the input. -/
theorem eatDot_length {cs r : Str} (h : eatDot cs = some r) :
    r.length < cs.length := by
  unfold eatDot at h
  split at h
  · cases h; simp
  · exact absurd h (by simp)

/-- A successful `chatGptTagAt` match strictly shortens the input. -/
theorem chatGptTagAt_length {cs rest : Str} (h : chatGptTagAt cs = some rest) :
    rest.length < cs.length := by
  simp only [chatGptTagAt, Option.bind_eq_bind, Option.bind_eq_some] at h
  obtain ⟨r1, h1, r2, h2, r3, h3, r3d, h3d, r4, h4, h5⟩ := h
  have e1 := eatLit_length h1
  have e2 := eatWs1_length h2
  have e3 := eatDigits1_length h3
  have e3d := eatDot_length h3d
  have e4 := eatDigits1_length h4
  have e5 : rest = r4 := by
    split at h5 <;> simp_all
  subst e5
  omega

/-- Helper for `removeChatGptVersionTags`; `prevIsWord` tracks whether the
preceding character of the original string is a word character (the `\b`
context). -/
def removeChatGptTagsAux : Nat → Bool → Str → Str
  | 0, _, s => s
  | _ + 1, _, [] => []
  | fuel + 1, prevIsWord, c :: t =>
    if prevIsWord then c :: removeChatGptTagsAux fuel (isWordChar c) t
    else
      match chatGptTagAt (c :: t) with
      | some rest => removeChatGptTagsAux fuel true rest
      | none => c :: removeChatGptTagsAux fuel (isWordChar c) t

/-- `.replace(/\bChatGPT\s+\d+\.\d+\b/g, "")` (fuel starts at the string's
length; each scanner step consumes at least one character). -/
def removeChatGptVersionTags (s : Str) : Str := removeChatGptTagsAux s.length false s

/-- `ExtractOptions`. -/
structure ExtractOptions where
  uiLabelRegenerate : Str
  uiLabelContinue : Str

/-- The character class `[^[\]\n]` of the bridge-marker regexes. -/
def markerBodyChar (c : Char) : Bool := c ≠ '[' && c ≠ ']' && c ≠ '\n'

/-- The `(?:OC|OPENCLAW_RID)=` part of the marker regexes: eat either name
(case-insensitively) followed by `=`. -/
def markerNameEat (r1 : Str) : Option Str :=
  match eatLitCI "oc".toList r1 with
  | some ('=' :: r2) => some r2
  | _ =>
    match eatLitCI "openclaw_rid".toList r1 with
    | some ('=' :: r2) => some r2
    | _ => none

/-- `markerNameEat` strictly shortens the input. -/
theorem markerNameEat_length {r1 r2 : Str} (h : markerNameEat r1 = some r2) :
    r2.length < r1.length := by
  unfold markerNameEat at h
  split at h
  · rename_i heq
    cases h
    have := eatLitCI_length heq
    simp only [List.length_cons] at this
    omega
  · split at h
    · rename_i heq
      cases h
      have := eatLitCI_length heq
      simp only [List.length_cons] at this
      omega
    · exact absurd h (by simp)

/-- Match one bridge marker `\[\[\s*(?:OC|OPENCLAW_RID)=[^[\]\n]+\]\]` (the
shared core of `BRIDGE_MARKER_*_REGEX`, case-insensitive) at the head of
`cs`; returns the rest after the match.  The body class excludes `]`, so the
regex engine's greedy body run admits no backtracking and this matcher is
exact. -/
def markerMatchAt (cs : Str) : Option Str :=
  match cs with
  | '[' :: '[' :: r =>
    match markerNameEat (r.dropWhile jsWs) with
    | none => none
    | some r2 =>
      if (r2.takeWhile markerBodyChar).isEmpty then none
      else
        match r2.drop (r2.takeWhile markerBodyChar).length with
        | ']' :: ']' :: r4 => some r4
        | _ => none
  | _ => none

/-- `BRIDGE_MARKER_EXACT_REGEX.test` (the `^…$`-anchored form): the whole
string is one marker. -/
def bridgeMarkerExact (cs : Str) : Bool := markerMatchAt cs == some []

/-- `BRIDGE_MARKER_IN_TEXT_REGEX.test`: some position starts a marker. -/
def bridgeMarkerInText : Str → Bool
  | [] => false
  | c :: t => (markerMatchAt (c :: t)).isSome || bridgeMarkerInText t

/-- A successful `markerMatchAt` strictly shortens the input. -/
theorem markerMatchAt_length {cs rest : Str} (h : markerMatchAt cs = some rest) :
    rest.length < cs.length := by
  unfold markerMatchAt at h
  split at h
  case _ r =>
    split at h
    · simp at h
    · rename_i r2 hname
      have h2 := markerNameEat_length hname
      have hws := dropWhile_length_le jsWs r
      split at h
      · simp at h
      · split at h
        · rename_i r4 hdrop
          cases h
          have hd := congrArg List.length hdrop
          simp only [List.length_drop, List.length_cons] at hd
          simp only [List.length_cons]
          omega
        · simp at h
  case _ => simp at h

/-- `stripUiNoise`: remove toolbar labels, regenerate/continue labels, the
typing-cursor glyph, `ChatGPT X.Y` version strings, AX role-description
artifacts, noise lines and thinking headers; strip glyphs; collapse runs of
spaces/tabs; trim. -/
def stripUiNoise (text : Str) (options : ExtractOptions) : Str :=
  let c1 := uiNoiseLabels.foldl (fun acc label => replaceAllL acc label []) text
  let c2 := replaceAllL (replaceAllL (replaceAllL
              (replaceAllL c1 "Regenerate response".toList [])
              options.uiLabelRegenerate []) options.uiLabelContinue [])
            "▍".toList []
  let c3 := removeChatGptVersionTags c2
  let c4 := joinNl (((splitNl c3).filter
              (fun l => !(axDecorationLabels.contains (toLowerStr (jsTrim l))))).filter
              (fun l => !(isUiNoiseLine l)) |>.filter (fun l => !(thinkingPatternMatch l)))
  let c5 := stripNonMeaningfulGlyphs c4
  jsTrim (collapseSpaceTab c5)

/-- Line walk of `stripLeadingPromptEcho`: returns the lines from the first
non-echo line on, together with the prompt-like and artifact removal
counters. -/
def echoWalk (pset : List Str) : List Str → Bool → Nat → Nat → (List Str × Nat × Nat)
  | [], _, rp, ra => ([], rp, ra)
  | raw :: rest, inEchoFileBlock, rp, ra =>
    let trimmed := jsTrim raw
    if trimmed.isEmpty then echoWalk pset rest inEchoFileBlock rp ra
    else if inEchoFileBlock then
      if isBridgeFileEndLine trimmed then echoWalk pset rest false rp (ra + 1)
      else echoWalk pset rest true rp ra
    else if pset.contains (normalizeLine trimmed) then echoWalk pset rest inEchoFileBlock (rp + 1) ra
    else if isBridgeFileBeginLine trimmed then echoWalk pset rest true rp (ra + 1)
    else if isBridgeFileContextLine trimmed then echoWalk pset rest inEchoFileBlock rp (ra + 1)
    else (raw :: rest, rp, ra)

/-- The normalized, non-empty lines of a prompt (the `promptLineSet`). -/
def promptLineSet (sentPrompt : Str) : List Str :=
  ((splitNl sentPrompt).map normalizeLine).filter (fun l => l.length > 0)

/-- `stripLeadingPromptEcho`. -/
def stripLeadingPromptEcho (text sentPrompt : Str) : Str :=
  let pset := promptLineSet sentPrompt
  let (remaining, removedPromptLikeLines, removedArtifactLines) :=
    echoWalk pset (splitNl text) false 0 0
  if removedArtifactLines > 0 || removedPromptLikeLines ≥ 2 then
    jsTrim (joinNl remaining)
  else jsTrim text

/-- `isLikelyPromptEcho`. -/
def isLikelyPromptEcho (text sentPrompt : Str) : Bool :=
  let candidate := jsTrim text
  let prompt := jsTrim sentPrompt
  if candidate.isEmpty || prompt.isEmpty then false
  else
    let normalizedCandidate := normalizeForEchoCompare candidate
    let normalizedPrompt := normalizeForEchoCompare prompt
    if includesL normalizedPrompt normalizedCandidate &&
        (normalizedCandidate.length ≥ 120 || candidate.contains '\n') then true
    else
      let pset := promptLineSet prompt
      let candidateLines := ((splitNl candidate).map normalizeLine).filter (fun l => l.length > 0)
      if candidateLines.length < 3 then false
      else
        let overlapCount := (candidateLines.filter (fun l => pset.contains l)).length
        -- `overlapCount / candidateLines.length >= 0.8`, exactly
        overlapCount * 5 ≥ candidateLines.length * 4

/-- `isMeaningfulExtractedText`. -/
def isMeaningfulExtractedText (text sentPrompt : Str) : Bool :=
  let trimmed := jsTrim (stripNonMeaningfulGlyphs text)
  if trimmed.isEmpty then false
  else if trimmed = jsTrim (stripNonMeaningfulGlyphs sentPrompt) then false
  else if isLikelyPromptEcho trimmed sentPrompt then false
  else if bridgeMarkerInText trimmed then false
  else
    let lines := ((splitNl trimmed).map normalizeLine).filter (fun l => l.length > 0)
    if lines.length = 0 then false
    else !(lines.all (fun line => uiNoiseLines.contains line))

/-- The line-split retry loop of `deduplicateAxText` (offsets −2…2). -/
def dedupLineSplit (lines : List Str) : List Int → Option Str
  | [] => none
  | offset :: rest =>
    let split : Int := (lines.length / 2 : Nat) + offset
    if split ≤ 0 || split ≥ (lines.length : Int) then dedupLineSplit lines rest
    else
      let firstHalf := jsTrim (joinNl (lines.take split.toNat))
      let secondHalf := jsTrim (joinNl (lines.drop split.toNat))
      if firstHalf = secondHalf then some firstHalf else dedupLineSplit lines rest

/-- `deduplicateAxText`: if the text splits into two equal halves (by
character, or by line at offsets −2…2 around the middle), keep one half. -/
def deduplicateAxText (text : Str) : Str :=
  let trimmed := jsTrim text
  let mid := trimmed.length / 2
  let charHalf : Option Str :=
    if mid > 0 then
      let firstHalf := jsTrim (trimmed.take mid)
      let secondHalf := jsTrim (trimmed.drop mid)
      if firstHalf = secondHalf then some firstHalf else none
    else none
  match charHalf with
  | some h => h
  | none =>
    let lines := splitNl trimmed
    if lines.length < 4 then trimmed
    else
      match dedupLineSplit lines [-2, -1, 0, 1, 2] with
      | some h => h
      | none => trimmed

/-- `finalizeExtractedCandidate`. -/
def finalizeExtractedCandidate (candidate sentPrompt : Str) : Str :=
  jsTrim (deduplicateAxText (stripLeadingPromptEcho candidate sentPrompt))

def bridgeMarkerMatchesFuel : Nat → Str → List Str
  | 0, _ => []
  | _ + 1, [] => []
  | fuel + 1, c :: t =>
    match markerMatchAt (c :: t) with
    | some rest =>
      ((c :: t).take ((c :: t).length - rest.length)) :: bridgeMarkerMatchesFuel fuel rest
    | none => bridgeMarkerMatchesFuel fuel t

/-- All non-overlapping matches of `BRIDGE_MARKER_GLOBAL_REGEX`, as matched
substrings in order (fuel starts at the string's length; each step consumes
at least one character, `markerMatchAt_length`). -/
def bridgeMarkerMatches (s : Str) : List Str := bridgeMarkerMatchesFuel s.length s

/-- `resolveBridgeMarker`: the trimmed anchor itself when it is exactly one
marker, otherwise the last marker occurring in the anchor, trimmed. -/
def resolveBridgeMarker (anchor : Str) : Option Str :=
  let trimmed := jsTrim anchor
  if bridgeMarkerExact trimmed then some trimmed
  else
    match (bridgeMarkerMatches anchor).getLast? with
    | some m => some (jsTrim m)
    | none => none

/-- `hasBridgeMarkerInAnchor`. -/
def hasBridgeMarkerInAnchor (anchor : Str) : Bool := (resolveBridgeMarker anchor).isSome

/-- Result of `extractAfterMarkerWithSnapshotFallback`. -/
inductive ExtractionMode
  | marker
  | snapshot_delta
deriving DecidableEq, Repr

/-- `ExtractWithSnapshotFallbackResult`. -/
structure ExtractFallbackResult where
  text : Str
  mode : ExtractionMode
deriving DecidableEq, Repr

/-- `longestCommonPrefixLength`. -/
def longestCommonPrefixLength : Str → Str → Nat
  | a :: as, b :: bs => if a = b then 1 + longestCommonPrefixLength as bs else 0
  | _, _ => 0

/-- `extractSnapshotDelta`: suffix of the current text after the longest
overlap with the pre-send snapshot (1024-char trailing-window lookup, else
longest common prefix). -/
def extractSnapshotDelta (fullText previousFullText : Str) : Str :=
  if previousFullText.length = 0 then fullText
  else
    let tail := previousFullText.drop (previousFullText.length - 1024)
    let viaTail : Option Str :=
      if tail.length ≥ 128 then
        match jsLastIndexOf fullText tail with
        | some tailIndex => some (fullText.drop (tailIndex + tail.length))
        | none => none
      else none
    match viaTail with
    | some s => s
    | none => fullText.drop (longestCommonPrefixLength fullText previousFullText)

/-- `/^chatgpt\s+\d+\.\d+$/i.test`. -/
def chatGptVersionLine (l : Str) : Bool :=
  (do
    let r1 ← eatLitCI "chatgpt".toList l
    let r2 ← eatWs1 r1
    let r3 ← eatDigits1 r2
    let r3d ← eatDot r3
    let r4 ← eatDigits1 r3d
    if r4.isEmpty then some () else none).isSome

/-- The last-resort tail walk of `extractAfterMarker`: given the non-empty
trimmed lines in reverse order, skip noise lines, stop at the prompt
boundary, and return the collected lines in original order. -/
def tailWalk (noiseSet : List Str) (promptFirstLine sentPrompt : Str) : List Str → List Str
  | [] => []
  | l :: rest =>
    let lower := toLowerStr l
    if noiseSet.contains lower || axDecorationLabels.contains lower || isUiNoiseLine lower then
      tailWalk noiseSet promptFirstLine sentPrompt rest
    else if chatGptVersionLine l then tailWalk noiseSet promptFirstLine sentPrompt rest
    else if isBridgeFileContextLine l then tailWalk noiseSet promptFirstLine sentPrompt rest
    else if promptFirstLine.length > 10 && includesL l promptFirstLine then []
    else if l = sentPrompt then []
    else tailWalk noiseSet promptFirstLine sentPrompt rest ++ [l]

/-- `extractAfterMarker` (returns the extracted text or the thrown
`BridgeError`).  In plain-text mode the `marker` parameter is the sent
prompt itself. -/
def extractAfterMarker (fullText marker : Str) (options : ExtractOptions) :
    Except BridgeErr Str :=
  let sentPrompt := marker
  match resolveBridgeMarker marker with
  | some bridgeMarker =>
    match jsLastIndexOf fullText bridgeMarker with
    | none =>
      .error { code := .ui_error, message := "Current marker not yet visible in scraped text",
               reason := some "marker_not_found" }
    | some lastMarkerIndex =>
      let afterMarker := fullText.drop (lastMarkerIndex + bridgeMarker.length)
      let cleaned := stripUiNoise afterMarker options
      let result := finalizeExtractedCandidate cleaned sentPrompt
      if isMeaningfulExtractedText result sentPrompt then .ok result
      else
        .error { code := .ui_error, message := "Response after current marker is not ready",
                 reason := some "response_not_ready" }
  | none =>
    -- Legacy path 1: last occurrence of the sent prompt.
    let attempt1 : Option Str :=
      match jsLastIndexOf fullText sentPrompt with
      | some lastPromptIndex =>
        let afterPrompt := fullText.drop (lastPromptIndex + sentPrompt.length)
        let cleaned := stripUiNoise afterPrompt options
        let result := finalizeExtractedCandidate cleaned sentPrompt
        if isMeaningfulExtractedText result sentPrompt then some result else none
      | none => none
    match attempt1 with
    | some r => .ok r
    | none =>
      -- Legacy path 2: first occurrence, with echo stripping.
      let attempt2 : Option Str :=
        match jsIndexOf fullText sentPrompt with
        | some firstPromptIndex =>
          let afterPrompt := fullText.drop (firstPromptIndex + sentPrompt.length)
          let cleaned := stripUiNoise afterPrompt options
          let withoutEcho := jsTrim (replaceOneL cleaned sentPrompt [])
          let result := finalizeExtractedCandidate
            (if withoutEcho.length > 0 then withoutEcho else cleaned) sentPrompt
          if isMeaningfulExtractedText result sentPrompt then some result else none
        | none => none
      match attempt2 with
      | some r => .ok r
      | none =>
        -- Legacy path 3: tail walk of non-noise lines up to the prompt boundary.
        let lines := ((splitNl fullText).map jsTrim).filter (fun l => l.length > 0)
        let noiseSet := uiNoiseLabels.map toLowerStr
        let promptFirstLine := jsTrim (firstLineCrLf sentPrompt)
        let meaningful := tailWalk noiseSet promptFirstLine sentPrompt lines.reverse
        let cleaned := stripUiNoise (joinNl meaningful) options
        let result := finalizeExtractedCandidate cleaned sentPrompt
        if isMeaningfulExtractedText result sentPrompt then .ok result
        else
          .error { code := .ui_error, message := "Could not extract response from scraped text",
                   reason := some "extraction_failed" }

/-- `extractAfterMarkerWithSnapshotFallback`: strict for bridge-marker
anchors (no fallback); for legacy anchors, on `ui_error` with a non-blank
pre-send snapshot, attempt the snapshot-delta path. -/
def extractAfterMarkerWithSnapshotFallback (fullText marker : Str)
    (options : ExtractOptions) (previousFullText : Str) :
    Except BridgeErr ExtractFallbackResult :=
  let bridgeMarker := resolveBridgeMarker marker
  match extractAfterMarker fullText marker options with
  | .ok markerText => .ok { text := markerText, mode := .marker }
  | .error e =>
    -- Strict mode for bridge markers: never fall back to snapshot delta.
    if bridgeMarker.isSome then .error e
    else if e.code ≠ .ui_error then .error e
    else if (jsTrim previousFullText).isEmpty then .error e
    else
      let delta := extractSnapshotDelta fullText previousFullText
      let cleaned := stripUiNoise delta options
      let result := finalizeExtractedCandidate cleaned marker
      if isMeaningfulExtractedText result marker then
        .ok { text := result, mode := .snapshot_delta }
      else
        .error { code := .ui_error, message := "Response delta after snapshot is not ready",
                 reason := some "response_not_ready" }

/-! ## `src/ui/markerMatch.ts` (marker visibility + the poll loop) -/

/-- `MarkerMatchMode`. -/
inductive MarkerMatchMode
  | noMatch
  | exact
  | normalized
  | firstLine
deriving DecidableEq, Repr

/-- `MarkerMatchResult`. -/
structure MarkerMatchResult where
  hasMarker : Bool
  mode : MarkerMatchMode
deriving DecidableEq, Repr

/-- `normalizeText` (also `normalizeForStableCompare` in the driver):
CRLF→LF, collapse whitespace, trim. -/
def normalizeText (v : Str) : Str :=
  jsTrim (collapseWs (replaceAllL v "\r\n".toList "\n".toList))

/-- `MIN_FIRST_LINE_CHARS`. -/
def minFirstLineChars : Nat := 10

/-- `matchMarkerInScrapedText`. -/
def matchMarkerInScrapedText (scrapedText marker : Str) : MarkerMatchResult :=
  if marker.length = 0 then { hasMarker := true, mode := .exact }
  else if includesL scrapedText marker then { hasMarker := true, mode := .exact }
  else
    let normalizedMarker := normalizeText marker
    let normalizedScraped := normalizeText scrapedText
    if normalizedMarker.length > 0 && includesL normalizedScraped normalizedMarker then
      { hasMarker := true, mode := .normalized }
    else
      let firstLine := jsTrim (firstLineCrLf marker)
      let normalizedFirstLine := normalizeText firstLine
      if normalizedFirstLine.length ≥ minFirstLineChars &&
          includesL normalizedScraped normalizedFirstLine then
        { hasMarker := true, mode := .firstLine }
      else { hasMarker := false, mode := .noMatch }

/-! ## `src/ui/detectErrors.ts` -/

/-- A configured `{code, includes[]}` UI-error pattern. -/
structure UiErrorPattern where
  code : Str
  includes : List Str
deriving DecidableEq, Repr

/-- `mapPatternCode`. -/
def mapPatternCode (code : Str) : Option BridgeCode :=
  if code = "usage_cap".toList then some .usage_cap
  else if code = "rate_limited".toList then some .rate_limited_by_chatgpt
  else if code = "rate_limited_by_chatgpt".toList then some .rate_limited_by_chatgpt
  else if code = "network_error".toList then some .network_error
  else if code = "captcha".toList then some .captcha
  else if code = "auth_required".toList then some .auth_required
  else none

/-- Printable name of a `BridgeCode` (for error messages). -/
def bridgeCodeStr : BridgeCode → String
  | .app_not_running => "app_not_running"
  | .accessibility_denied => "accessibility_denied"
  | .ui_element_not_found => "ui_element_not_found"
  | .ui_reset_failed => "ui_reset_failed"
  | .ui_error => "ui_error"
  | .usage_cap => "usage_cap"
  | .rate_limited_by_chatgpt => "rate_limited_by_chatgpt"
  | .captcha => "captcha"
  | .network_error => "network_error"
  | .auth_required => "auth_required"
  | .conversation_not_found => "conversation_not_found"
  | .file_context_invalid => "file_context_invalid"
  | .file_context_access_denied => "file_context_access_denied"
  | .file_context_not_found => "file_context_not_found"
  | .file_context_unsupported => "file_context_unsupported"
  | .prompt_too_large => "prompt_too_large"
  | .queue_full => "queue_full"
  | .timeout => "timeout"
  | .unknown => "unknown"

/-- Pattern scan of `detectUiError` (first match wins). -/
def detectUiErrorLoop (haystack : Str) : List UiErrorPattern → Option BridgeErr
  | [] => none
  | pattern :: rest =>
    match mapPatternCode (toLowerStr pattern.code) with
    | none => detectUiErrorLoop haystack rest
    | some mapped =>
      if pattern.includes.any (fun needle => includesL haystack (toLowerStr needle)) then
        some { code := mapped,
               message := "Detected ChatGPT UI error: " ++ bridgeCodeStr mapped,
               retryAfterSec :=
                 if mapped = .usage_cap || mapped = .rate_limited_by_chatgpt then some 60
                 else none }
      else detectUiErrorLoop haystack rest

/-- `detectUiError`: case-insensitive substring match of configured
patterns against the scraped text. -/
def detectUiError (fullText : Str) (patterns : List UiErrorPattern) : Option BridgeErr :=
  detectUiErrorLoop (toLowerStr fullText) patterns

/-! ## The poll loop (`ChatGPTAppDriver.pollForStableText`) -/

/-- The configuration fields the poll loop reads. Times are milliseconds
(`Int`, exact; `maxWaitSec`/`pollIntervalSec` are seconds as in config). -/
structure PollConfig where
  maxWaitSec : Int
  pollIntervalSec : Int
  stableChecks : Nat
  scrapeCallTimeoutMs : Int
  extractNoIndicatorStableMs : Int
  requireCompletionIndicators : Bool
  uiLabelRegenerate : Str
  uiLabelContinue : Str
  uiErrorPatterns : List UiErrorPattern

/-- `POLL_UI_RECOVERY_GRACE_MS`. -/
def pollUiRecoveryGraceMs : Int := 120000

/-- `POLL_SCRAPE_TIMEOUT_GRACE_MS`. -/
def pollScrapeTimeoutGraceMs : Int := 120000

/-- `POLL_SCRAPE_TIMEOUT_BACKOFF_STEP_MS`. -/
def pollScrapeTimeoutBackoffStepMs : Int := 5000

/-- `POLL_SCRAPE_TIMEOUT_BACKOFF_MAX_MS`. -/
def pollScrapeTimeoutBackoffMaxMs : Int := 60000

/-- One poll iteration as observed from outside: the clock value for the
iteration (the driver reads `Date.now()` several times per iteration over a
few milliseconds; the embedding uses one reading per tick) and the scrape
outcome. -/
structure PollTick where
  now : Int
  scrape : Except BridgeErr Str

/-- `PollResult`. -/
structure PollResult where
  fullText : Str
  extractedText : Str
  extractionMode : ExtractionMode
deriving DecidableEq, Repr

/-- The loop's mutable locals. -/
structure PollLoopState where
  previousText : Str
  previousExtractedNormalized : Str
  previousExtractionMode : Option ExtractionMode
  stableExtractedSinceMs : Option Int
  stableCount : Nat
  uiUnavailableSince : Option Int
  uiRecoveryAttempts : Nat
  scrapeTimeoutSince : Option Int
  scrapeTimeoutAttempts : Nat
  scrapeCallTimeoutMs : Int

/-- `resetStabilityState`. -/
def resetStabilityState (st : PollLoopState) : PollLoopState :=
  { st with stableCount := 0, stableExtractedSinceMs := none,
            previousExtractedNormalized := [], previousExtractionMode := none }

/-- `tryExtractableResponse`. -/
def tryExtractableResponse (cfg : PollConfig)
    (latestText extractionAnchor previousFullText : Str) : Option ExtractFallbackResult :=
  if extractionAnchor.length = 0 then none
  else
    match extractAfterMarkerWithSnapshotFallback latestText extractionAnchor
        { uiLabelRegenerate := cfg.uiLabelRegenerate, uiLabelContinue := cfg.uiLabelContinue }
        previousFullText with
    | .ok extracted => if (jsTrim extracted.text).length > 0 then some extracted else none
    | .error _ => none

/-- The typing-cursor test string of `pollForStableText`. The source
literal is the two characters U+00E2 U+2013 ("â" + EN DASH): a Latin-1
mojibake of the block glyph ▍ (U+258D) that the extractor strips. -/
def pollTypingCursorLiteral : Str := [Char.ofNat 0xe2, Char.ofNat 0x2013]

/-- One successful-scrape iteration body (source lines 838–987): recovery
bookkeeping resets, UI-error detection, extraction, the done predicate and
the stability counter. Returns either a final result/error or the state for
the next iteration. -/
def pollIterate (cfg : PollConfig) (marker extractionAnchor previousFullText : Str)
    (bridgeMarkerExpected : Bool) (st : PollLoopState) (now : Int) (latestText : Str) :
    Except BridgeErr (Option PollResult × PollLoopState) :=
  -- scrape-timeout recovery: reset backoff and counters
  let st :=
    if st.scrapeTimeoutSince.isSome then
      { st with scrapeCallTimeoutMs := cfg.scrapeCallTimeoutMs,
                scrapeTimeoutSince := none, scrapeTimeoutAttempts := 0 }
    else st
  -- ui-unavailability recovery: reset counters
  let st :=
    if st.uiUnavailableSince.isSome then
      { st with uiUnavailableSince := none, uiRecoveryAttempts := 0 }
    else st
  match detectUiError latestText cfg.uiErrorPatterns with
  | some detectedError => .error detectedError
  | none =>
    let markerMatch := matchMarkerInScrapedText latestText marker
    let hasMarker := markerMatch.hasMarker
    let extractedCandidate := tryExtractableResponse cfg latestText extractionAnchor previousFullText
    let hasExtractableResponse := extractedCandidate.isSome
    let extractedNormalized :=
      match extractedCandidate with
      | some e => normalizeText e.text
      | none => []
    let extractionMode : Option ExtractionMode := extractedCandidate.map (fun e => e.mode)
    let isSameAsPreviousExtracted :=
      extractedNormalized.length > 0 &&
      extractedNormalized == st.previousExtractedNormalized &&
      extractionMode == st.previousExtractionMode
    let hasTypingCursor := includesL latestText pollTypingCursorLiteral
    let lowerText := toLowerStr latestText
    let hasCompletionIndicators :=
      includesL lowerText (toLowerStr cfg.uiLabelRegenerate) ||
      includesL lowerText (toLowerStr cfg.uiLabelContinue)
    let indicatorOk := !cfg.requireCompletionIndicators || hasCompletionIndicators
    let stableExtractedSinceMs :=
      if !hasExtractableResponse then none
      else if extractedNormalized ≠ st.previousExtractedNormalized then some now
      else if st.stableExtractedSinceMs.isNone then some now
      else st.stableExtractedSinceMs
    let stableExtractedMs :=
      match stableExtractedSinceMs with
      | none => 0
      | some since => now - since
    let noIndicatorStableEnough :=
      hasCompletionIndicators || stableExtractedMs ≥ cfg.extractNoIndicatorStableMs
    let completionGatePassed := indicatorOk && noIndicatorStableEnough
    let markerGatePassed :=
      !bridgeMarkerExpected || (hasMarker && extractionMode == some ExtractionMode.marker)
    let doneCandidate :=
      hasExtractableResponse && isSameAsPreviousExtracted && !hasTypingCursor &&
      completionGatePassed && markerGatePassed && extractionMode.isSome &&
      latestText.length > 0
    let stableCount := if doneCandidate then st.stableCount + 1 else 0
    let st := { st with previousText := latestText,
                        previousExtractedNormalized := extractedNormalized,
                        previousExtractionMode := extractionMode,
                        stableExtractedSinceMs := stableExtractedSinceMs,
                        stableCount := stableCount }
    match extractedCandidate with
    | some candidate =>
      if stableCount ≥ cfg.stableChecks then
        .ok (some { fullText := latestText, extractedText := candidate.text,
                    extractionMode := candidate.mode }, st)
      else .ok (none, st)
    | none => .ok (none, st)

/-- The poll loop over a finite tick trace. A trace that ends (or a tick at
or past the deadline) is the `maxWaitSec` deadline expiring, which the
source reports as `timeout`. -/
def pollLoopGo (cfg : PollConfig) (marker extractionAnchor previousFullText : Str)
    (bridgeMarkerExpected : Bool) (deadline : Int) :
    PollLoopState → List PollTick → Except BridgeErr PollResult
  | _, [] =>
    .error { code := .timeout, message := "Timed out waiting for ChatGPT response" }
  | st, tick :: rest =>
    if tick.now < deadline then
      match tick.scrape with
      | .error bridgeError =>
        let isRecoverableUiError :=
          bridgeError.code = .ui_element_not_found || bridgeError.code = .app_not_running
        let isRecoverableScrapeTimeout := bridgeError.code = .timeout
        if !isRecoverableUiError && !isRecoverableScrapeTimeout then .error bridgeError
        else if isRecoverableScrapeTimeout then
          let scrapeTimeoutGraceMs := max pollScrapeTimeoutGraceMs (cfg.maxWaitSec * 1000)
          let since := st.scrapeTimeoutSince.getD tick.now
          let attempts := st.scrapeTimeoutAttempts + 1
          let unavailableMs := tick.now - since
          if unavailableMs ≥ scrapeTimeoutGraceMs then
            .error { code := .timeout, message := "Timed out scraping ChatGPT response",
                     reason := some "scrape_timeout" }
          else
            let nextScrapeCallTimeoutMs :=
              min (st.scrapeCallTimeoutMs + pollScrapeTimeoutBackoffStepMs)
                pollScrapeTimeoutBackoffMaxMs
            let st := resetStabilityState
              { st with scrapeTimeoutSince := some since,
                        scrapeTimeoutAttempts := attempts,
                        scrapeCallTimeoutMs := nextScrapeCallTimeoutMs }
            pollLoopGo cfg marker extractionAnchor previousFullText bridgeMarkerExpected
              deadline st rest
        else
          -- ui_element_not_found / app_not_running: attempt recovery
          -- (`ensureRunning` + `ensureWindowAvailable`; their own failures are
          -- caught and logged), then check the grace window.
          let since := st.uiUnavailableSince.getD tick.now
          let attempts := st.uiRecoveryAttempts + 1
          let unavailableMs := tick.now - since
          if unavailableMs ≥ pollUiRecoveryGraceMs then
            .error { code := .ui_element_not_found, message := "No ChatGPT window found" }
          else
            let st := resetStabilityState
              { st with uiUnavailableSince := some since, uiRecoveryAttempts := attempts }
            pollLoopGo cfg marker extractionAnchor previousFullText bridgeMarkerExpected
              deadline st rest
      | .ok latestText =>
        match pollIterate cfg marker extractionAnchor previousFullText bridgeMarkerExpected
            st tick.now latestText with
        | .error e => .error e
        | .ok (some result, _) => .ok result
        | .ok (none, st) =>
          pollLoopGo cfg marker extractionAnchor previousFullText bridgeMarkerExpected
            deadline st rest
    else .error { code := .timeout, message := "Timed out waiting for ChatGPT response" }

/-- `pollForStableText`, over a tick trace starting at clock `startNow`. -/
def pollForStableText (cfg : PollConfig) (marker extractionAnchor previousFullText : Str)
    (startNow : Int) (ticks : List PollTick) : Except BridgeErr PollResult :=
  pollLoopGo cfg marker extractionAnchor previousFullText
    (hasBridgeMarkerInAnchor extractionAnchor) (startNow + cfg.maxWaitSec * 1000)
    { previousText := [], previousExtractedNormalized := [], previousExtractionMode := none,
      stableExtractedSinceMs := none, stableCount := 0, uiUnavailableSince := none,
      uiRecoveryAttempts := 0, scrapeTimeoutSince := none, scrapeTimeoutAttempts := 0,
      scrapeCallTimeoutMs := cfg.scrapeCallTimeoutMs } ticks

/-! ## `src/http/openaiRoutes.ts` -/

/-- `makeMarker` (from `src/ui/extract.ts`): `[[OC=<rid>.<tag>]]` where the
tag is the first 16 characters of `base64url(HMAC-SHA256(secret, rid))`.
The HMAC comes from `node:crypto`; it is passed in as a function
`hmacSha256Base64url secret message` whose relevant properties (digest
length 43, base64url alphabet) become hypotheses of the theorems. -/
def makeMarker (hmacSha256Base64url : Str → Str → Str) (requestId secret : Str) : Str :=
  "[[OC=".toList ++ requestId ++ '.' :: ((hmacSha256Base64url secret requestId).take 16) ++
    "]]".toList

/-- A stand-in for `node:crypto`'s digest at concrete inputs: a fixed
43-character string over the base64url alphabet (the exact length and
alphabet of `base64url(HMAC-SHA256(...))`, which is what `makeMarker`
truncates). -/
def hmacDigestStub : Str → Str → Str :=
  fun _ _ => "0123456789abcdefghijklmnopqrstuvwxyzABCDEF-".toList

/-- `getRequestId`, pure part: the trimmed `x-request-id` header when it is a
non-blank string, else the freshly generated `nanoid()`. -/
def getRequestId (headerRequestId : Option Str) (freshId : Str) : Str :=
  match headerRequestId with
  | some h => if (jsTrim h).length > 0 then jsTrim h else freshId
  | none => freshId

/-- The prompt actually sent to the driver (source line 1016):
``promptForSend = `${prompt}\n\n${marker}` `` with `prompt` the
file-context-expanded prompt. -/
def promptForSend (prompt marker : Str) : Str := prompt ++ "\n\n".toList ++ marker

/-- `ErrorResponseShape`. -/
structure ErrorResponseShape where
  status : Nat
  code : String
  message : String
  retryAfterSec : Option Int := none
deriving DecidableEq, Repr

/-- `mapBridgeError`. -/
def mapBridgeError (error : BridgeErr) : ErrorResponseShape :=
  match error.code with
  | .app_not_running | .accessibility_denied =>
    { status := 503, code := bridgeCodeStr error.code, message := error.message }
  | .queue_full =>
    { status := 429, code := bridgeCodeStr error.code, message := error.message,
      retryAfterSec := some (error.retryAfterSec.getD 10) }
  | .prompt_too_large =>
    { status := 400, code := bridgeCodeStr error.code, message := error.message }
  | .conversation_not_found =>
    { status := 404, code := bridgeCodeStr error.code, message := error.message }
  | .file_context_not_found =>
    { status := 404, code := bridgeCodeStr error.code, message := error.message }
  | .file_context_access_denied =>
    { status := 403, code := bridgeCodeStr error.code, message := error.message }
  | .file_context_invalid | .file_context_unsupported =>
    { status := 400, code := bridgeCodeStr error.code, message := error.message }
  | .usage_cap | .rate_limited_by_chatgpt =>
    { status := 429, code := bridgeCodeStr error.code, message := error.message,
      retryAfterSec := some (error.retryAfterSec.getD 60) }
  | .captcha | .auth_required =>
    { status := 403, code := bridgeCodeStr error.code, message := error.message }
  | .network_error | .ui_error | .ui_reset_failed =>
    { status := 502, code := bridgeCodeStr error.code, message := error.message }
  | .ui_element_not_found =>
    { status := 428, code := bridgeCodeStr error.code, message := error.message }
  | .timeout =>
    { status := 504, code := bridgeCodeStr error.code, message := error.message }
  | .unknown =>
    { status := 500, code := bridgeCodeStr error.code, message := error.message }

/-- The request fields `shouldDisableClientRetry` inspects. -/
structure ReqInfo where
  method : String
  path : String
deriving DecidableEq, Repr

/-- `shouldDisableClientRetry`: only `POST /v1/chat/completions`. -/
def shouldDisableClientRetry (req : ReqInfo) : Bool :=
  req.method = "POST" && req.path = "/v1/chat/completions"

/-- The dependency fields `setBridgeHeaders` reads. -/
structure HeaderDeps where
  version : String
  queueDepth : Nat
  resetStrict : Bool
deriving DecidableEq, Repr

/-- `HeaderContext`. -/
structure HeaderContext where
  sessionSlot : Option String := none
  conversationId : Option String := none
deriving DecidableEq, Repr

/-- `setBridgeHeaders`: the seven `x-bridge-*` headers, in source order. -/
def setBridgeHeaders (deps : HeaderDeps) (rid : String) (contextReset : Nat)
    (headerContext : HeaderContext) : List (String × String) :=
  [("x-bridge-version", deps.version),
   ("x-bridge-request-id", rid),
   ("x-bridge-queue-depth", toString deps.queueDepth),
   ("x-bridge-context-reset", toString contextReset),
   ("x-bridge-reset-strict", if deps.resetStrict then "1" else "0"),
   ("x-bridge-session-slot", headerContext.sessionSlot.getD ""),
   ("x-bridge-conversation-id", headerContext.conversationId.getD "")]

/-- An HTTP error response as assembled by `sendOpenAiError`: status,
headers in the order they are set, and the OpenAI-style error payload. -/
structure ErrorResponse where
  status : Nat
  headers : List (String × String)
  payloadCode : String
  payloadMessage : String
deriving DecidableEq, Repr

/-- `sendOpenAiError`: bridge headers, then `x-should-retry: false` for the
completion endpoint only, then `Retry-After` when a hint is present, then
the JSON error payload with the mapped status. -/
def sendOpenAiError (deps : HeaderDeps) (req : ReqInfo) (rid : String)
    (error : ErrorResponseShape) (contextReset : Nat) (headerContext : HeaderContext) :
    ErrorResponse :=
  let base := setBridgeHeaders deps rid contextReset headerContext
  let withRetryFlag :=
    if shouldDisableClientRetry req then base ++ [("x-should-retry", "false")] else base
  let withRetryAfter :=
    match error.retryAfterSec with
    | some n => withRetryFlag ++ [("Retry-After", toString n)]
    | none => withRetryFlag
  { status := error.status, headers := withRetryAfter,
    payloadCode := error.code, payloadMessage := error.message }

/-- Header lookup (first match, case-sensitive names as the code sets them). -/
def headerValue (headers : List (String × String)) (name : String) : Option String :=
  match headers with
  | [] => none
  | (n, v) :: rest => if n = name then some v else headerValue rest name

/-! ### Session routing (`resolveRoutingContext`) -/

/-- `SessionBindingMode`. -/
inductive SessionBindingMode
  | off
  | sticky
  | explicitMode
deriving DecidableEq, Repr

/-- `normalizeSessionSlot` (from `src/session/store.ts`): trim + lowercase,
`"default"` when absent or empty. -/
def normalizeSessionSlot (slot : Option Str) : Str :=
  match slot with
  | none => "default".toList
  | some s =>
    let normalized := toLowerStr (jsTrim s)
    if normalized.isEmpty then "default".toList else normalized

/-- `normalizeConversationId` (from `src/session/store.ts`): trim, `none`
when absent or blank. -/
def normalizeConversationId (conversationId : Option Str) : Option Str :=
  match conversationId with
  | none => none
  | some s =>
    let normalized := jsTrim s
    if normalized.isEmpty then none else some normalized

/-- `ConversationSource`. -/
inductive ConversationSource
  | fromBody
  | fromBinding
  | noConversation
deriving DecidableEq, Repr

/-- `RoutingContext`. -/
structure RoutingContext where
  mode : SessionBindingMode
  sessionSlot : Str
  conversationId : Option Str
  conversationSource : ConversationSource
  strictOpen : Bool
deriving DecidableEq, Repr

/-- The config fields `resolveRoutingContext` reads. -/
structure RoutingConfig where
  sessionBindingMode : SessionBindingMode
  sessionDefaultSlot : Str
  sessionBindingStrictOpen : Bool

/-- `resolveRoutingContext`; the binding store is abstracted to its `get`
function. -/
def resolveRoutingContext (config : RoutingConfig) (storeGet : Str → Option Str)
    (conversationId sessionKey : Option Str) :
    Except ErrorResponseShape RoutingContext :=
  match config.sessionBindingMode with
  | .off =>
    .ok { mode := .off,
          sessionSlot := normalizeSessionSlot (some config.sessionDefaultSlot),
          conversationId := none, conversationSource := .noConversation,
          strictOpen := false }
  | mode =>
    let sessionSlot :=
      normalizeSessionSlot (some (sessionKey.getD config.sessionDefaultSlot))
    let bodyConversationId := normalizeConversationId conversationId
    if hm : mode = .explicitMode then
      match bodyConversationId with
      | none =>
        .error { status := 400, code := "invalid_request",
                 message := "conversation_id is required when SESSION_BINDING_MODE=explicit" }
      | some cid =>
        .ok { mode := mode, sessionSlot := sessionSlot, conversationId := some cid,
              conversationSource := .fromBody,
              strictOpen := config.sessionBindingStrictOpen }
    else
      match bodyConversationId with
      | some cid =>
        .ok { mode := mode, sessionSlot := sessionSlot, conversationId := some cid,
              conversationSource := .fromBody,
              strictOpen := config.sessionBindingStrictOpen }
      | none =>
        match normalizeConversationId (storeGet sessionSlot) with
        | some boundConversationId =>
          .ok { mode := mode, sessionSlot := sessionSlot,
                conversationId := some boundConversationId,
                conversationSource := .fromBinding,
                strictOpen := config.sessionBindingStrictOpen }
        | none =>
          .ok { mode := mode, sessionSlot := sessionSlot, conversationId := none,
                conversationSource := .noConversation, strictOpen := false }

/-- `resolveHeaderSessionSlot`. -/
def resolveHeaderSessionSlot (mode : SessionBindingMode) (sessionSlot : Str) : Str :=
  if mode = .off then [] else sessionSlot

/-! ### Single-flight fingerprint (`buildCompletionRequestKey`) -/

/-- Lowercase hex digit. -/
def hexDigitChar (n : Nat) : Char :=
  if n < 10 then Char.ofNat (48 + n) else Char.ofNat (87 + n)

/-- One character escaped as in `JSON.stringify` string serialization. -/
def jsonEscapeChar (c : Char) : Str :=
  if c = '"' then ['\\', '"']
  else if c = '\\' then ['\\', '\\']
  else if c.toNat = 8 then ['\\', 'b']
  else if c = '\t' then ['\\', 't']
  else if c = '\n' then ['\\', 'n']
  else if c.toNat = 12 then ['\\', 'f']
  else if c = '\r' then ['\\', 'r']
  else if c.toNat < 0x20 then
    ['\\', 'u', '0', '0', hexDigitChar (c.toNat / 16), hexDigitChar (c.toNat % 16)]
  else [c]

/-- `JSON.stringify` escaping of a whole string (without the quotes). -/
def jsonEscape (s : Str) : Str := (s.map jsonEscapeChar).join

/-- A JSON string literal: quotes around the escaped content. -/
def jsonQuote (s : Str) : Str := '"' :: (jsonEscape s ++ ['"'])

/-- The wire value of a `SessionBindingMode` (the config string). -/
def sessionBindingModeStr : SessionBindingMode → Str
  | .off => "off".toList
  | .sticky => "sticky".toList
  | .explicitMode => "explicit".toList

/-- `buildCompletionRequestKey`: `JSON.stringify` of
`{prompt, mode, sessionSlot, conversationId: cid ?? "", strictOpen}` —
computed from the file-context-expanded prompt (before the marker is
appended) and the routing context only. -/
def buildCompletionRequestKey (prompt : Str) (routing : RoutingContext) : Str :=
  "\x7b\"prompt\":".toList ++ jsonQuote prompt ++
  ",\"mode\":".toList ++ jsonQuote (sessionBindingModeStr routing.mode) ++
  ",\"sessionSlot\":".toList ++ jsonQuote routing.sessionSlot ++
  ",\"conversationId\":".toList ++ jsonQuote (routing.conversationId.getD []) ++
  ",\"strictOpen\":".toList ++
  (if routing.strictOpen then "true".toList else "false".toList) ++ "\x7d".toList

/-- The in-flight admission decision of the completion handler (source
lines 936–964): no tracked completion → proceed; tracked with the same
fingerprint → join its promise; otherwise → 409 `previous_response_pending`. -/
inductive AdmissionDecision
  | proceed
  | join
  | reject
deriving DecidableEq, Repr

/-- The completion handler's in-flight check. -/
def completionAdmission (inFlightKey : Option Str) (requestKey : Str) : AdmissionDecision :=
  match inFlightKey with
  | none => .proceed
  | some key => if key = requestKey then .join else .reject

/-! ## `src/utils/rateLimit.ts` (`TokenBucketRateLimiter`)

Numbers are modelled exactly over `ℚ`; clock values are milliseconds as
returned by `Date.now()`. -/

/-- `RateLimitDecision`. -/
structure RateLimitDecision where
  allowed : Bool
  retryAfterSec : Int
  remainingTokens : ℚ
deriving DecidableEq, Repr

/-- The limiter's fields (`capacity` and `refillPerSecond` are fixed at
construction; `tokens` and `lastRefill` mutate). -/
structure TokenBucketState where
  capacity : ℚ
  refillPerSecond : ℚ
  tokens : ℚ
  lastRefill : ℚ
deriving DecidableEq, Repr

/-- The constructor: full bucket (`tokens = capacity = burst`),
`refillPerSecond = rpm / 60`. -/
def TokenBucketState.init (rpm burst : ℚ) (now : ℚ) : TokenBucketState :=
  { capacity := burst, refillPerSecond := rpm / 60, tokens := burst, lastRefill := now }

/-- `refill`: add `elapsedSeconds * refillPerSecond` tokens (capped at
capacity); `lastRefill` always advances, and nothing is added when no time
elapsed. -/
def TokenBucketState.refill (st : TokenBucketState) (now : ℚ) : TokenBucketState :=
  let elapsedSeconds := max 0 ((now - st.lastRefill) / 1000)
  let st := { st with lastRefill := now }
  if elapsedSeconds ≤ 0 then st
  else { st with tokens := min st.capacity (st.tokens + elapsedSeconds * st.refillPerSecond) }

/-- `consume`: refill, then either take the requested tokens or deny with
`retryAfterSec = max(1, ceil(needed / refillPerSecond))` (60 when the
refill rate is zero). -/
def TokenBucketState.consume (st : TokenBucketState) (now : ℚ) (requestedTokens : ℚ) :
    RateLimitDecision × TokenBucketState :=
  let st := st.refill now
  if requestedTokens ≤ st.tokens then
    let st := { st with tokens := st.tokens - requestedTokens }
    ({ allowed := true, retryAfterSec := 0, remainingTokens := st.tokens }, st)
  else
    let needed := requestedTokens - st.tokens
    let retryAfterSec : Int :=
      if 0 < st.refillPerSecond then max 1 ⌈needed / st.refillPerSecond⌉ else 60
    ({ allowed := false, retryAfterSec := retryAfterSec, remainingTokens := st.tokens }, st)

/-- `n` back-to-back `consume(1)` calls at one instant; returns whether all
were allowed, with the final state. -/
def TokenBucketState.consumeSeq (st : TokenBucketState) (now : ℚ) : Nat → Bool × TokenBucketState
  | 0 => (true, st)
  | n + 1 =>
    if (st.consume now 1).1.allowed then ((st.consume now 1).2).consumeSeq now n
    else (false, (st.consume now 1).2)

/-! ## `src/session/store.ts` (`FileSessionBindingStore`)

The store serializes with `JSON.stringify(payload, null, 2)` and reads back
with `JSON.parse`; both are embedded below (`serializeBindings`,
`jsonParse`).  The parser covers the JSON grammar as exercised by this
store: objects, arrays, strings (with escapes), `true`/`false`/`null`, and
numbers (consumed and kept opaque — `parseBindingsFile` discards every
non-string value by its `typeof` check). -/

/-- JS `Map` semantics: `set` updates an existing key in place (keeping its
position) or appends a new one. JS plain-object string-key assignment obeys
the same rule. -/
def mapSet : List (Str × Str) → Str → Str → List (Str × Str)
  | [], k, v => [(k, v)]
  | (k', v') :: t, k, v =>
    if k' = k then (k, v) :: t else (k', v') :: mapSet t k v

/-- JS `Map.get`. -/
def mapGet : List (Str × Str) → Str → Option Str
  | [], _ => none
  | (k', v') :: t, k => if k' = k then some v' else mapGet t k

/-- JS `Map.delete`: the map without the key, and whether it was present. -/
def mapDelete : List (Str × Str) → Str → List (Str × Str) × Bool
  | [], _ => ([], false)
  | (k', v') :: t, k =>
    if k' = k then (t, true)
    else ((k', v') :: (mapDelete t k).1, (mapDelete t k).2)

/-- A parsed JSON value (numbers are kept opaque: the store skips them). -/
inductive Json
  | null
  | bool (b : Bool)
  | num
  | str (s : Str)
  | arr (elems : List Json)
  | obj (members : List (Str × Json))

/-- JSON-grammar whitespace (space, tab, LF, CR). -/
def jsonWs (c : Char) : Bool := c == ' ' || c == '\t' || c == '\n' || c == '\r'

/-- Skip JSON whitespace. -/
def skipJsonWs (cs : Str) : Str := cs.dropWhile jsonWs

/-- Hex digit value. -/
def hexVal (c : Char) : Option Nat :=
  if 48 ≤ c.toNat && c.toNat ≤ 57 then some (c.toNat - 48)
  else if 97 ≤ c.toNat && c.toNat ≤ 102 then some (c.toNat - 87)
  else if 65 ≤ c.toNat && c.toNat ≤ 70 then some (c.toNat - 55)
  else none

/-- Parse the body of a JSON string after the opening quote; returns the
decoded content and the rest after the closing quote. -/
def jsonParseStrBody : Str → Option (Str × Str)
  | [] => none
  | '"' :: rest => some ([], rest)
  | '\\' :: 'u' :: a :: b :: c :: d :: rest => do
    let va ← hexVal a
    let vb ← hexVal b
    let vc ← hexVal c
    let vd ← hexVal d
    let (s, r) ← jsonParseStrBody rest
    some (Char.ofNat (((va * 16 + vb) * 16 + vc) * 16 + vd) :: s, r)
  | '\\' :: e :: rest => do
    let ch ← match e with
      | '"' => some '"'
      | '\\' => some '\\'
      | '/' => some '/'
      | 'b' => some (Char.ofNat 8)
      | 'f' => some (Char.ofNat 12)
      | 'n' => some '\n'
      | 'r' => some '\r'
      | 't' => some '\t'
      | _ => none
    let (s, r) ← jsonParseStrBody rest
    some (ch :: s, r)
  | c :: rest =>
    if c.toNat < 0x20 then none
    else do
      let (s, r) ← jsonParseStrBody rest
      some (c :: s, r)

/-- Consume JSON number syntax (`-?digits(.digits)?([eE][+-]?digits)?`);
the numeric value is irrelevant to the store. -/
def jsonSkipNum (cs : Str) : Option Str :=
  let afterSign := match cs with
    | '-' :: r => r
    | r => r
  match afterSign with
  | c :: _ =>
    if isDigitChar c then
      let afterInt := afterSign.dropWhile isDigitChar
      let afterFrac := match afterInt with
        | '.' :: f :: fr =>
          if isDigitChar f then (f :: fr).dropWhile isDigitChar else afterInt
        | r => r
      let afterExp := match afterFrac with
        | 'e' :: r | 'E' :: r =>
          let r' := match r with
            | '+' :: r2 => r2
            | '-' :: r2 => r2
            | r2 => r2
          match r' with
          | d :: _ => if isDigitChar d then some (r'.dropWhile isDigitChar) else none
          | [] => none
        | r => some r
      afterExp
    else none
  | [] => none

mutual

/-- Parse one JSON value (fuel-bounded recursive descent). -/
def jsonParseVal : Nat → Str → Option (Json × Str)
  | 0, _ => none
  | fuel + 1, cs =>
    match skipJsonWs cs with
    | 'n' :: 'u' :: 'l' :: 'l' :: r => some (.null, r)
    | 't' :: 'r' :: 'u' :: 'e' :: r => some (.bool true, r)
    | 'f' :: 'a' :: 'l' :: 's' :: 'e' :: r => some (.bool false, r)
    | '"' :: r =>
      match jsonParseStrBody r with
      | some (s, r') => some (.str s, r')
      | none => none
    | '[' :: r =>
      (match skipJsonWs r with
       | ']' :: r' => some (.arr [], r')
       | r' =>
         match jsonParseElems fuel r' with
         | some (es, r'') => some (.arr es, r'')
         | none => none)
    | '{' :: r =>
      (match skipJsonWs r with
       | '}' :: r' => some (.obj [], r')
       | r' =>
         match jsonParseMembers fuel r' with
         | some (ms, r'') => some (.obj ms, r'')
         | none => none)
    | cs' =>
      match jsonSkipNum cs' with
      | some r => some (.num, r)
      | none => none

/-- Parse one-or-more comma-separated array elements up to `]`. -/
def jsonParseElems : Nat → Str → Option (List Json × Str)
  | 0, _ => none
  | fuel + 1, cs =>
    match jsonParseVal fuel cs with
    | none => none
    | some (v, r) =>
      match skipJsonWs r with
      | ',' :: r' =>
        (match jsonParseElems fuel r' with
         | some (vs, r'') => some (v :: vs, r'')
         | none => none)
      | ']' :: r' => some ([v], r')
      | _ => none

/-- Parse one-or-more comma-separated object members up to `}`. -/
def jsonParseMembers : Nat → Str → Option (List (Str × Json) × Str)
  | 0, _ => none
  | fuel + 1, cs =>
    match skipJsonWs cs with
    | '"' :: r =>
      match jsonParseStrBody r with
      | none => none
      | some (key, r1) =>
        match skipJsonWs r1 with
        | ':' :: r2 =>
          (match jsonParseVal fuel r2 with
           | none => none
           | some (v, r3) =>
             match skipJsonWs r3 with
             | ',' :: r4 =>
               (match jsonParseMembers fuel r4 with
                | some (ms, r5) => some ((key, v) :: ms, r5)
                | none => none)
             | '}' :: r4 => some ([(key, v)], r4)
             | _ => none)
        | _ => none
    | _ => none

end

/-- `JSON.parse` of a complete document. -/
def jsonParse (cs : Str) : Option Json :=
  match jsonParseVal (cs.length + 1) cs with
  | none => none
  | some (v, rest) => if (skipJsonWs rest).isEmpty then some v else none

/-- Object-member lookup (`"bindings" in parsed` / `parsed.bindings`). -/
def jsonObjGet : List (Str × Json) → Str → Option Json
  | [], _ => none
  | (k, v) :: t, key => if k = key then some v else jsonObjGet t key

/-- `parseBindingsFile`: parse the file, unwrap the `bindings` member when
present (else treat the whole object as the map), then keep the string
members, normalizing slots and conversation ids and dropping blanks. -/
def parseBindingsFile (raw : Str) : List (Str × Str) :=
  match jsonParse raw with
  | none => []
  | some parsed =>
    let base :=
      match parsed with
      | .obj ms =>
        (match jsonObjGet ms "bindings".toList with
         | some v => v
         | none => parsed)
      | _ => parsed
    match base with
    | .obj ms =>
      ms.foldl
        (fun output kv =>
          match kv.2 with
          | .str conversationId =>
            (match normalizeConversationId (some conversationId) with
             | none => output
             | some normalizedConversationId =>
               mapSet output (normalizeSessionSlot (some kv.1)) normalizedConversationId)
          | _ => output)
        []
    | _ => []

/-- One serialized member line of `JSON.stringify(payload, null, 2)`:
four-space indent, quoted key, `: `, quoted value. -/
def bindingsMemberLine (kv : Str × Str) : Str :=
  "    ".toList ++ jsonQuote kv.1 ++ ": ".toList ++ jsonQuote kv.2

/-- `JSON.stringify({ bindings }, null, 2)` plus the trailing newline the
store appends. -/
def serializeBindings (bindings : List (Str × Str)) : Str :=
  match bindings with
  | [] => "\x7b\n  \"bindings\": \x7b\x7d\n\x7d\n".toList
  | _ =>
    "\x7b\n  \"bindings\": \x7b\n".toList ++
    List.intercalate ",\n".toList (bindings.map bindingsMemberLine) ++
    "\n  \x7d\n\x7d\n".toList

/-! ### The file system and the store's operations -/

/-- A directory-less model of the files the store touches: path ↦ content. -/
abbrev FsState := List (Str × Str)

/-- The two file operations `persistToDisk` performs. -/
inductive FsOp
  | write (path content : Str)
  | rename (src dst : Str)

/-- Apply one operation (`rename` moves the content over the target,
atomically replacing it). -/
def applyFsOp (fs : FsState) : FsOp → FsState
  | .write p c => mapSet fs p c
  | .rename src dst =>
    match mapGet fs src with
    | some c => mapSet (mapDelete fs src).1 dst c
    | none => fs

/-- Apply a sequence of operations. -/
def applyFsOps (fs : FsState) (ops : List FsOp) : FsState := ops.foldl applyFsOp fs

/-- `path.dirname` (Node semantics on the cases used here). -/
def dirname (p : Str) : Str :=
  match jsLastIndexOf p "/".toList with
  | none => ".".toList
  | some 0 => "/".toList
  | some i => p.take i

/-- `FileSessionBindingStore`'s state. -/
structure SessionStore where
  filePath : Str
  bindings : List (Str × Str)
  loaded : Bool

/-- A freshly constructed store. -/
def SessionStore.new (filePath : Str) : SessionStore :=
  { filePath := filePath, bindings := [], loaded := false }

/-- `persistToDisk` as the operation sequence it issues: write the full
serialized map to `${filePath}.${pid}.${Date.now()}.${randomUUID()}.tmp`
(`tmpSuffix` stands for the `${pid}.${Date.now()}.${randomUUID()}.tmp`
part), then rename it over the target. -/
def SessionStore.persistOps (store : SessionStore) (tmpSuffix : Str) : List FsOp :=
  let tmpPath := store.filePath ++ '.' :: tmpSuffix
  [.write tmpPath (serializeBindings store.bindings), .rename tmpPath store.filePath]

/-- `delete`: drop the normalized slot; persist only when it was present. -/
def SessionStore.delete (store : SessionStore) (fs : FsState) (tmpSuffix : Str)
    (slot : Str) : SessionStore × FsState × List FsOp :=
  let normalizedSlot := normalizeSessionSlot (some slot)
  if (mapDelete store.bindings normalizedSlot).2 then
    let store := { store with bindings := (mapDelete store.bindings normalizedSlot).1 }
    (store, applyFsOps fs (store.persistOps tmpSuffix), store.persistOps tmpSuffix)
  else (store, fs, [])

/-- `set`: a blank conversation id deletes the binding; otherwise store the
normalized pair and persist. -/
def SessionStore.set (store : SessionStore) (fs : FsState) (tmpSuffix : Str)
    (slot conversationId : Str) : SessionStore × FsState × List FsOp :=
  let normalizedSlot := normalizeSessionSlot (some slot)
  match normalizeConversationId (some conversationId) with
  | none => store.delete fs tmpSuffix normalizedSlot
  | some normalizedConversationId =>
    let store :=
      { store with bindings := mapSet store.bindings normalizedSlot normalizedConversationId }
    (store, applyFsOps fs (store.persistOps tmpSuffix), store.persistOps tmpSuffix)

/-- `load`: read and parse the file (a missing file leaves the store
empty); `set` each parsed entry into the in-memory map. -/
def SessionStore.load (store : SessionStore) (fs : FsState) : SessionStore :=
  if store.loaded then store
  else
    match mapGet fs store.filePath with
    | none => { store with loaded := true }
    | some raw =>
      let parsed := parseBindingsFile raw
      { store with
          bindings := parsed.foldl (fun b kv => mapSet b kv.1 kv.2) store.bindings,
          loaded := true }

/-- `get`. -/
def SessionStore.get (store : SessionStore) (slot : Str) : Option Str :=
  mapGet store.bindings (normalizeSessionSlot (some slot))

/-! ## Helper lemmas -/

/-- `Char.ofNat` round-trips through `toNat` below the surrogate range. -/
theorem charOfNat_toNat_small {n : Nat} (h : n < 55296) : (Char.ofNat n).toNat = n := by
  have hv : n.isValidChar := Or.inl h
  simp only [Char.ofNat, dif_pos hv, Char.ofNatAux, Char.toNat]
  show (UInt32.mk (BitVec.ofNatLt n _)).toNat = n
  rfl

/-- `jsToLower` acts as `loCode` on code points. -/
theorem jsToLower_toNat (c : Char) : (jsToLower c).toNat = loCode c.toNat := by
  unfold jsToLower
  by_cases h1 : (65 ≤ c.toNat && c.toNat ≤ 90) = true
  · have : loCode c.toNat = c.toNat + 32 := by
      unfold loCode; rw [if_pos h1]
    rw [this]
    simp only [Bool.and_eq_true, decide_eq_true_eq] at h1
    exact charOfNat_toNat_small (by omega)
  · by_cases h2 : (192 ≤ c.toNat && c.toNat ≤ 222 && c.toNat != 215) = true
    · have : loCode c.toNat = c.toNat + 32 := by
        unfold loCode; rw [if_neg h1, if_pos h2]
      rw [this]
      simp only [Bool.and_eq_true, decide_eq_true_eq] at h2
      exact charOfNat_toNat_small (by omega)
    · have : loCode c.toNat = c.toNat := by
        unfold loCode; rw [if_neg h1, if_neg h2]
      rw [this, Char.ofNat_toNat]

/-- `loCode` is idempotent. -/
theorem loCode_idem (n : Nat) : loCode (loCode n) = loCode n := by
  unfold loCode
  split_ifs with h1 h2 h3 h4 h5 h6 h7 h8 <;>
    simp_all only [Bool.and_eq_true, decide_eq_true_eq, bne_iff_ne, ne_eq,
      Bool.not_eq_true, Bool.and_eq_false_iff, decide_eq_false_iff_not, not_le] <;>
    omega

/-- `jsToLower` is idempotent. -/
theorem jsToLower_idem (c : Char) : jsToLower (jsToLower c) = jsToLower c := by
  have h1 : jsToLower (jsToLower c) = Char.ofNat (loCode ((jsToLower c)).toNat) := rfl
  rw [h1, jsToLower_toNat, loCode_idem]
  rfl

/-- `toLowerStr` is idempotent. -/
theorem toLowerStr_idem (s : Str) : toLowerStr (toLowerStr s) = toLowerStr s := by
  unfold toLowerStr
  rw [List.map_map]
  exact List.map_congr_left fun c _ => jsToLower_idem c

/-- No whitespace code point lies in 33…5759 except 160. -/
theorem jsWsCode_false_of (m : Nat) (hge : 33 ≤ m) (hlt : m ≤ 5759) (hne : m ≠ 160) :
    jsWsCode m = false := by
  unfold jsWsCode
  simp only [Bool.or_eq_false_iff, beq_eq_false_iff_ne, ne_eq, Bool.and_eq_false_iff,
    decide_eq_false_iff_not, not_le]
  omega

/-- `loCode` maps no code point into or out of the whitespace class. -/
theorem jsWsCode_loCode (n : Nat) : jsWsCode (loCode n) = jsWsCode n := by
  unfold loCode
  split_ifs with h1 h2
  · simp only [Bool.and_eq_true, decide_eq_true_eq] at h1
    rw [jsWsCode_false_of (n + 32) (by omega) (by omega) (by omega),
        jsWsCode_false_of n (by omega) (by omega) (by omega)]
  · simp only [Bool.and_eq_true, decide_eq_true_eq, bne_iff_ne, ne_eq] at h2
    rw [jsWsCode_false_of (n + 32) (by omega) (by omega) (by omega),
        jsWsCode_false_of n (by omega) (by omega) (by omega)]
  · rfl

/-- Lowercasing does not change whitespace-ness. -/
theorem jsWs_jsToLower (c : Char) : jsWs (jsToLower c) = jsWs c := by
  unfold jsWs
  rw [jsToLower_toNat, jsWsCode_loCode]

/-- `dropWhile` is idempotent. -/
theorem dropWhile_idem (p : Char → Bool) (l : Str) :
    (l.dropWhile p).dropWhile p = l.dropWhile p := by
  induction l with
  | nil => simp
  | cons c t ih =>
    by_cases h : p c
    · simpa [List.dropWhile_cons, h] using ih
    · simp [List.dropWhile_cons, h]

/-- The head of a `jsTrim`-style double-trim survives a further front trim:
`dropWhile` on the reverse of the back-trimmed string is the identity. -/
theorem dropWhile_reverse_backTrim (p : Char → Bool) (u : Str) :
    ((u.reverse.dropWhile p).reverse).dropWhile p =
      (u.reverse.dropWhile p).reverse ∨ u.dropWhile p ≠ u := by
  by_cases hfix : u.dropWhile p = u
  · left
    cases hv : (u.reverse.dropWhile p).reverse with
    | nil => simp
    | cons c w =>
      have hc : ((u.reverse.dropWhile p).reverse).head? = some c := by rw [hv]; rfl
      rw [List.head?_reverse] at hc
      obtain ⟨a, ha⟩ := List.dropWhile_suffix (l := u.reverse) p
      have hlast : u.reverse.getLast? = some c := by
        rw [← ha, List.getLast?_append, hc]; rfl
      rw [List.getLast?_reverse] at hlast
      have hpc : p c = false := by
        have := List.head?_dropWhile_not p u
        rw [hfix, hlast] at this
        exact this
      simp [List.dropWhile_cons, hpc]
  · right; exact hfix

/-- `jsTrim` is idempotent. -/
theorem jsTrim_idem (s : Str) : jsTrim (jsTrim s) = jsTrim s := by
  unfold jsTrim
  have hfix : ((s.dropWhile jsWs).reverse.dropWhile jsWs).reverse.dropWhile jsWs =
      ((s.dropWhile jsWs).reverse.dropWhile jsWs).reverse := by
    rcases dropWhile_reverse_backTrim jsWs (s.dropWhile jsWs) with h | h
    · exact h
    · exact absurd (dropWhile_idem jsWs s) h
  rw [hfix, List.reverse_reverse, dropWhile_idem]

/-- Lowercasing commutes with trimming. -/
theorem toLowerStr_jsTrim_comm (s : Str) :
    toLowerStr (jsTrim s) = jsTrim (toLowerStr s) := by
  unfold jsTrim toLowerStr
  have hcomp : (jsWs ∘ jsToLower) = jsWs := funext fun c => jsWs_jsToLower c
  rw [List.dropWhile_map, hcomp, ← List.map_reverse, List.dropWhile_map, hcomp,
    ← List.map_reverse]

/-- `normalizeSessionSlot` on a present slot, as an `if`. -/
theorem normalizeSessionSlot_some (s : Str) :
    normalizeSessionSlot (some s) =
      (if (toLowerStr (jsTrim s)).isEmpty then "default".toList
       else toLowerStr (jsTrim s)) := rfl

/-- `normalizeConversationId` on a present id, as an `if`. -/
theorem normalizeConversationId_some (v : Str) :
    normalizeConversationId (some v) =
      (if (jsTrim v).isEmpty then none else some (jsTrim v)) := rfl

/-- Trim-then-lowercase is a fixed point of trim-then-lowercase. -/
theorem toLowerStr_jsTrim_fix (s : Str) :
    toLowerStr (jsTrim (toLowerStr (jsTrim s))) = toLowerStr (jsTrim s) := by
  rw [toLowerStr_jsTrim_comm, toLowerStr_idem, ← toLowerStr_jsTrim_comm, jsTrim_idem]

/-- `normalizeSessionSlot` is idempotent. -/
theorem normalizeSessionSlot_idem (s : Str) :
    normalizeSessionSlot (some (normalizeSessionSlot (some s))) =
      normalizeSessionSlot (some s) := by
  rw [normalizeSessionSlot_some s]
  by_cases h : (toLowerStr (jsTrim s)).isEmpty
  · rw [if_pos h]
    decide
  · rw [if_neg h, normalizeSessionSlot_some, toLowerStr_jsTrim_fix, if_neg h]

/-- A trimmed non-blank string is a fixed point of `normalizeConversationId`. -/
theorem normalizeConversationId_trimmed {v : Str} (htrim : jsTrim v = v) (hne : v ≠ []) :
    normalizeConversationId (some v) = some v := by
  rw [normalizeConversationId_some, htrim, if_neg (by simpa [List.isEmpty_iff] using hne)]

/-- The output of `normalizeConversationId` is a non-blank fixed point. -/
theorem normalizeConversationId_out {v n : Str}
    (h : normalizeConversationId (some v) = some n) : jsTrim n = n ∧ n ≠ [] := by
  rw [normalizeConversationId_some] at h
  by_cases he : (jsTrim v).isEmpty
  · rw [if_pos he] at h; cases h
  · rw [if_neg he] at h
    cases h
    exact ⟨jsTrim_idem v, by simpa [List.isEmpty_iff] using he⟩

/-- The output of `normalizeSessionSlot` is its own normal form. -/
theorem normalizeSessionSlot_out (s : Option Str) :
    normalizeSessionSlot (some (normalizeSessionSlot s)) = normalizeSessionSlot s := by
  match s with
  | none =>
    show normalizeSessionSlot (some "default".toList) = _
    decide
  | some v => exact normalizeSessionSlot_idem v

/-! ### Association-list lemmas (`mapSet` / `mapGet` / `mapDelete`) -/

/-- Looking up the key just set. -/
theorem mapGet_mapSet_self (m : List (Str × Str)) (k v : Str) :
    mapGet (mapSet m k v) k = some v := by
  induction m with
  | nil => simp [mapSet, mapGet]
  | cons kv t ih =>
    by_cases h : kv.1 = k
    · simp [mapSet, mapGet, h]
    · simp only [mapSet, mapGet, h, if_neg, ite_false]
      simpa [mapGet, h] using ih

/-- Looking up another key after a set. -/
theorem mapGet_mapSet_ne (m : List (Str × Str)) (k v k' : Str) (h : k' ≠ k) :
    mapGet (mapSet m k v) k' = mapGet m k' := by
  induction m with
  | nil =>
    simp only [mapSet, mapGet, if_neg (show ¬k = k' from fun he => h he.symm)]
  | cons kv t ih =>
    by_cases hk : kv.1 = k
    · simp only [mapSet, hk, if_pos]
      simp [mapGet, Ne.symm h, hk]
    · simp only [mapSet, hk, ite_false]
      by_cases hk' : kv.1 = k'
      · simp [mapGet, hk']
      · simp [mapGet, hk', ih]

/-- An absent key looks up to `none`. -/
theorem mapGet_not_mem {m : List (Str × Str)} {k : Str}
    (h : k ∉ m.map Prod.fst) : mapGet m k = none := by
  induction m with
  | nil => rfl
  | cons kv t ih =>
    simp only [List.map_cons, List.mem_cons, not_or] at h
    cases kv with
    | mk k' v' =>
      simp only [mapGet, if_neg (fun he : k' = k => h.1 (he ▸ rfl))]
      exact ih h.2

/-- Deleting a key removes it (when keys are distinct). -/
theorem mapGet_mapDelete_self (m : List (Str × Str)) (k : Str)
    (hnd : (m.map Prod.fst).Nodup) : mapGet (mapDelete m k).1 k = none := by
  induction m with
  | nil => simp [mapDelete, mapGet]
  | cons kv t ih =>
    cases kv with
    | mk k' v' =>
      simp only [List.map_cons, List.nodup_cons] at hnd
      by_cases h : k' = k
      · simp only [mapDelete, h, if_pos]
        exact mapGet_not_mem (h ▸ hnd.1)
      · simp only [mapDelete, h, ite_false]
        simp only [mapGet, if_neg h]
        exact ih hnd.2

/-- `mapSet` keys: unchanged when the key is present, appended otherwise. -/
theorem mapSet_keys (m : List (Str × Str)) (k v : Str) :
    (mapSet m k v).map Prod.fst = if k ∈ m.map Prod.fst then m.map Prod.fst
      else m.map Prod.fst ++ [k] := by
  induction m with
  | nil => simp [mapSet]
  | cons kv t ih =>
    cases kv with
    | mk k' v' =>
      by_cases h : k' = k
      · simp [mapSet, h]
      · simp only [mapSet, h, ite_false, List.map_cons, ih, List.mem_cons]
        by_cases hm : k ∈ t.map Prod.fst
        · simp [hm, Ne.symm h]
        · simp [hm, Ne.symm h]

/-- `mapSet` preserves key distinctness. -/
theorem mapSet_nodup {m : List (Str × Str)} {k v : Str}
    (hnd : ((m.map Prod.fst)).Nodup) : ((mapSet m k v).map Prod.fst).Nodup := by
  rw [mapSet_keys]
  by_cases h : k ∈ m.map Prod.fst
  · simpa [h] using hnd
  · simp only [h, ite_false]
    simpa [List.nodup_append, h] using hnd

/-- `mapDelete` keys form a sublist, so distinctness is preserved. -/
theorem mapDelete_keys_sublist (m : List (Str × Str)) (k : Str) :
    ((mapDelete m k).1.map Prod.fst).Sublist (m.map Prod.fst) := by
  induction m with
  | nil => simp [mapDelete]
  | cons kv t ih =>
    cases kv with
    | mk k' v' =>
      by_cases h : k' = k
      · simp only [mapDelete, h, if_pos, List.map_cons]
        exact (List.sublist_cons_self _ _)
      · simp only [mapDelete, h, ite_false, List.map_cons]
        exact ih.cons₂ k'

/-- Every value in the map after a `mapSet` is the new value or an old one. -/
theorem mapSet_values_subset {m : List (Str × Str)} {k v : Str} {kv : Str × Str}
    (h : kv ∈ mapSet m k v) : kv = (k, v) ∨ kv ∈ m := by
  induction m with
  | nil => simpa [mapSet] using h
  | cons kv' t ih =>
    by_cases hk : kv'.1 = k
    · simp only [mapSet, hk, if_pos, List.mem_cons] at h
      rcases h with h | h
      · exact Or.inl h
      · exact Or.inr (List.mem_cons_of_mem _ h)
    · simp only [mapSet, hk, ite_false, List.mem_cons] at h
      rcases h with h | h
      · exact Or.inr (h ▸ List.mem_cons_self _ _)
      · rcases ih h with h' | h'
        · exact Or.inl h'
        · exact Or.inr (List.mem_cons_of_mem _ h')

/-- Every entry surviving a `mapDelete` was in the map. -/
theorem mapDelete_values_subset {m : List (Str × Str)} {k : Str} {kv : Str × Str}
    (h : kv ∈ (mapDelete m k).1) : kv ∈ m := by
  induction m with
  | nil => simpa [mapDelete] using h
  | cons kv' t ih =>
    by_cases hk : kv'.1 = k
    · simp only [mapDelete, hk, if_pos] at h
      exact List.mem_cons_of_mem _ h
    · simp only [mapDelete, hk, ite_false, List.mem_cons] at h
      rcases h with h | h
      · exact h ▸ List.mem_cons_self _ _
      · exact List.mem_cons_of_mem _ (ih h)

/-- `makeMarker` is injective in the request id whenever the digest has at
least 16 characters (a base64url SHA-256 digest always has 43): markers of
distinct request ids differ. -/
theorem makeMarker_inj (hmac : Str → Str → Str) {secret rid₁ rid₂ : Str}
    (h1 : 16 ≤ (hmac secret rid₁).length) (h2 : 16 ≤ (hmac secret rid₂).length)
    (hne : rid₁ ≠ rid₂) : makeMarker hmac rid₁ secret ≠ makeMarker hmac rid₂ secret := by
  intro h
  unfold makeMarker at h
  have hl1 : ((hmac secret rid₁).take 16).length = 16 := by
    rw [List.length_take]; omega
  have hl2 : ((hmac secret rid₂).take 16).length = 16 := by
    rw [List.length_take]; omega
  have hlen := congrArg List.length h
  simp only [List.length_append, List.length_cons, hl1, hl2] at hlen
  have hrid : rid₁.length = rid₂.length := by omega
  simp only [List.append_assoc] at h
  exact hne (List.append_inj (List.append_cancel_left h) hrid).1

/-! ## Claims -/

/-- C6. The single-flight admission fingerprint (`buildCompletionRequestKey`,
source line 931) is computed from the file-context-expanded prompt — before
the marker is appended at line 1016 — together with the routing context
(mode, session slot, conversation id or empty, strict-open) and nothing
else: two completion requests with the same expanded prompt and routing get
the literally identical fingerprint even though their request ids differ
and hence (digest length ≥ 16) their markers and sent prompts differ, so
the second request joins the in-flight entry rather than being rejected. -/
theorem claim_C6_fingerprint_excludes_marker
    (expandedPrompt : Str) (routing : RoutingContext) (hmac : Str → Str → Str)
    (secret rid₁ rid₂ : Str)
    (h1 : 16 ≤ (hmac secret rid₁).length) (h2 : 16 ≤ (hmac secret rid₂).length)
    (hne : rid₁ ≠ rid₂) :
    buildCompletionRequestKey expandedPrompt routing =
      buildCompletionRequestKey expandedPrompt routing ∧
    promptForSend expandedPrompt (makeMarker hmac rid₁ secret) ≠
      promptForSend expandedPrompt (makeMarker hmac rid₂ secret) ∧
    completionAdmission (some (buildCompletionRequestKey expandedPrompt routing))
      (buildCompletionRequestKey expandedPrompt routing) = .join := by
  refine ⟨rfl, ?_, ?_⟩
  · intro h
    exact makeMarker_inj hmac h1 h2 hne (List.append_cancel_left h)
  · simp [completionAdmission]

/-- Witness for C6 at concrete inputs. -/
theorem claim_C6_fingerprint_excludes_marker_witness :
    completionAdmission
      (some (buildCompletionRequestKey "hello".toList
        { mode := .sticky, sessionSlot := "default".toList, conversationId := none,
          conversationSource := .noConversation, strictOpen := false }))
      (buildCompletionRequestKey "hello".toList
        { mode := .sticky, sessionSlot := "default".toList, conversationId := none,
          conversationSource := .noConversation, strictOpen := false }) = .join :=
  (claim_C6_fingerprint_excludes_marker "hello".toList
    { mode := .sticky, sessionSlot := "default".toList, conversationId := none,
      conversationSource := .noConversation, strictOpen := false }
    (fun _ _ => "0123456789abcdefghijklmnopqrstuvwxyzABCDEF-".toList)
    "secret".toList "r1".toList "r2".toList
    (by decide) (by decide) (by decide)).2.2

/-- C7. Routing resolution: in explicit mode a completion whose
`conversation_id` is missing or blank after trimming is answered with
`400 invalid_request`; in sticky mode the conversation id used is the body
`conversation_id` when present (non-blank), else the persisted binding for
the normalized slot, else left unspecified; in off mode the body routing
fields are ignored (any body values resolve identically) and the emitted
session-slot header is the empty string. -/
theorem claim_C7_routing_resolution
    (config : RoutingConfig) (storeGet : Str → Option Str)
    (conversationId sessionKey : Option Str) :
    (config.sessionBindingMode = .explicitMode →
      normalizeConversationId conversationId = none →
      resolveRoutingContext config storeGet conversationId sessionKey =
        .error { status := 400, code := "invalid_request",
                 message := "conversation_id is required when SESSION_BINDING_MODE=explicit" }) ∧
    (config.sessionBindingMode = .sticky →
      (∀ cid, normalizeConversationId conversationId = some cid →
        resolveRoutingContext config storeGet conversationId sessionKey =
          .ok { mode := .sticky,
                sessionSlot :=
                  normalizeSessionSlot (some (sessionKey.getD config.sessionDefaultSlot)),
                conversationId := some cid, conversationSource := .fromBody,
                strictOpen := config.sessionBindingStrictOpen }) ∧
      (normalizeConversationId conversationId = none →
        (∀ bid,
          normalizeConversationId
            (storeGet (normalizeSessionSlot (some (sessionKey.getD config.sessionDefaultSlot)))) =
              some bid →
          resolveRoutingContext config storeGet conversationId sessionKey =
            .ok { mode := .sticky,
                  sessionSlot :=
                    normalizeSessionSlot (some (sessionKey.getD config.sessionDefaultSlot)),
                  conversationId := some bid, conversationSource := .fromBinding,
                  strictOpen := config.sessionBindingStrictOpen }) ∧
        (normalizeConversationId
            (storeGet (normalizeSessionSlot (some (sessionKey.getD config.sessionDefaultSlot)))) =
              none →
          resolveRoutingContext config storeGet conversationId sessionKey =
            .ok { mode := .sticky,
                  sessionSlot :=
                    normalizeSessionSlot (some (sessionKey.getD config.sessionDefaultSlot)),
                  conversationId := none, conversationSource := .noConversation,
                  strictOpen := false }))) ∧
    (config.sessionBindingMode = .off →
      (∀ cid' sk',
        resolveRoutingContext config storeGet cid' sk' =
          .ok { mode := .off,
                sessionSlot := normalizeSessionSlot (some config.sessionDefaultSlot),
                conversationId := none, conversationSource := .noConversation,
                strictOpen := false }) ∧
      (∀ s, resolveHeaderSessionSlot .off s = [])) := by
  obtain ⟨mode, defSlot, strictOpen⟩ := config
  refine ⟨?_, ?_, ?_⟩
  · intro hmode hcid
    dsimp only at hmode
    subst hmode
    simp [resolveRoutingContext, hcid]
  · intro hmode
    dsimp only at hmode
    subst hmode
    refine ⟨?_, ?_⟩
    · intro cid hcid
      simp [resolveRoutingContext, hcid]
    · intro hcid
      refine ⟨?_, ?_⟩
      · intro bid hbid
        simp [resolveRoutingContext, hcid, hbid]
      · intro hbid
        simp [resolveRoutingContext, hcid, hbid]
  · intro hmode
    dsimp only at hmode
    subst hmode
    exact ⟨fun cid' sk' => by simp [resolveRoutingContext], fun s => rfl⟩

/-- Witness for C7 at concrete inputs (explicit mode, blank body id). -/
theorem claim_C7_routing_resolution_witness :
    resolveRoutingContext
      { sessionBindingMode := .explicitMode, sessionDefaultSlot := "default".toList,
        sessionBindingStrictOpen := true } (fun _ => none) (some "  ".toList) none =
      .error { status := 400, code := "invalid_request",
               message := "conversation_id is required when SESSION_BINDING_MODE=explicit" } :=
  (claim_C7_routing_resolution
    { sessionBindingMode := .explicitMode, sessionDefaultSlot := "default".toList,
      sessionBindingStrictOpen := true } (fun _ => none) (some "  ".toList) none).1
    rfl (by decide)

/-- C5, counterexample. A `429 queue_full` on `GET /v1/bridge/conversations`
(the FIFO queue throws `queue_full` with a 10-second hint when full, and the
handler maps it through `sendOpenAiError`) carries `Retry-After: 10` but NO
`x-should-retry` header: `shouldDisableClientRetry` is true only for
`POST /v1/chat/completions`, so the claim's "on any endpoint" is false. -/
theorem claim_C5_counterexample :
    (sendOpenAiError { version := "1.0.0", queueDepth := 20, resetStrict := false }
      { method := "GET", path := "/v1/bridge/conversations" } "rid-1"
      (mapBridgeError
        { code := .queue_full, message := "Queue is full", retryAfterSec := some 10 })
      0 { sessionSlot := some "default", conversationId := some "" }).status = 429 ∧
    headerValue
      (sendOpenAiError { version := "1.0.0", queueDepth := 20, resetStrict := false }
        { method := "GET", path := "/v1/bridge/conversations" } "rid-1"
        (mapBridgeError
          { code := .queue_full, message := "Queue is full", retryAfterSec := some 10 })
        0 { sessionSlot := some "default", conversationId := some "" }).headers
      "Retry-After" = some "10" ∧
    headerValue
      (sendOpenAiError { version := "1.0.0", queueDepth := 20, resetStrict := false }
        { method := "GET", path := "/v1/bridge/conversations" } "rid-1"
        (mapBridgeError
          { code := .queue_full, message := "Queue is full", retryAfterSec := some 10 })
        0 { sessionSlot := some "default", conversationId := some "" }).headers
      "x-should-retry" = none := by
  refine ⟨rfl, ?_, ?_⟩ <;> rfl

/-- C5, amended. Every `429 queue_full` response assembled by
`sendOpenAiError` carries `Retry-After` (the error's hint, 10 seconds by
default); `x-should-retry: false` is carried exactly when the request is
`POST /v1/chat/completions` — not on other endpoints such as
`GET /v1/bridge/conversations`. -/
theorem claim_C5_queue_full_headers (deps : HeaderDeps) (req : ReqInfo) (rid : String)
    (e : BridgeErr) (contextReset : Nat) (hc : HeaderContext)
    (hcode : e.code = .queue_full) :
    (sendOpenAiError deps req rid (mapBridgeError e) contextReset hc).status = 429 ∧
    headerValue (sendOpenAiError deps req rid (mapBridgeError e) contextReset hc).headers
      "Retry-After" = some (toString (e.retryAfterSec.getD 10)) ∧
    (headerValue (sendOpenAiError deps req rid (mapBridgeError e) contextReset hc).headers
      "x-should-retry" = some "false" ↔
      (req.method = "POST" ∧ req.path = "/v1/chat/completions")) := by
  obtain ⟨code, msg, rsn, retry⟩ := e
  dsimp only at hcode
  subst hcode
  have hmap :
      mapBridgeError
        { code := .queue_full, message := msg, reason := rsn, retryAfterSec := retry } =
        { status := 429, code := "queue_full", message := msg,
          retryAfterSec := some (retry.getD 10) } := rfl
  rw [hmap]
  unfold sendOpenAiError
  by_cases hp : shouldDisableClientRetry req = true
  · simp only [hp, if_pos]
    refine ⟨trivial, ?_, ?_⟩
    · simp [headerValue, setBridgeHeaders]
    · simp only [headerValue, setBridgeHeaders]
      norm_num
      unfold shouldDisableClientRetry at hp
      simpa [Bool.and_eq_true, decide_eq_true_eq] using hp
  · simp only [hp, if_neg, Bool.not_eq_true, ite_false]
    refine ⟨trivial, ?_, ?_⟩
    · simp [headerValue, setBridgeHeaders]
    · simp only [headerValue, setBridgeHeaders]
      norm_num
      unfold shouldDisableClientRetry at hp
      simpa [Bool.and_eq_true, decide_eq_true_eq] using hp

/-- Witness for the amended C5 on the completion endpoint. -/
theorem claim_C5_queue_full_headers_witness :
    headerValue
      (sendOpenAiError { version := "1.0.0", queueDepth := 20, resetStrict := false }
        { method := "POST", path := "/v1/chat/completions" } "rid-2"
        (mapBridgeError
          { code := .queue_full, message := "Queue is full", retryAfterSec := none })
        0 {}).headers "Retry-After" = some "10" ∧
    (headerValue
      (sendOpenAiError { version := "1.0.0", queueDepth := 20, resetStrict := false }
        { method := "POST", path := "/v1/chat/completions" } "rid-2"
        (mapBridgeError
          { code := .queue_full, message := "Queue is full", retryAfterSec := none })
        0 {}).headers "x-should-retry" = some "false") := by
  have h := claim_C5_queue_full_headers
    { version := "1.0.0", queueDepth := 20, resetStrict := false }
    { method := "POST", path := "/v1/chat/completions" } "rid-2"
    { code := .queue_full, message := "Queue is full", retryAfterSec := none } 0 {} rfl
  exact ⟨h.2.1, h.2.2.mpr ⟨rfl, rfl⟩⟩

/-- C2, evaluated at the failing input. `makeMarker` follows the
`[[OC=<rid>.<tag>]]` template and yields well-formed single-line markers
for bracket-free rids (first two conjuncts), but `getRequestId` adopts an
arbitrary non-blank client-supplied `x-request-id` verbatim (trimmed), and
for the legal header value `" a]b "` the resulting marker embeds `]` inside
the marker body, so it fails `BRIDGE_MARKER_EXACT_REGEX` and is not
recognized by the extractor's own `resolveBridgeMarker` — the claimed
"never contains brackets or newlines for arbitrary client-supplied rids"
is violated by the code. -/
theorem claim_C2_marker_bracket_rid_eval :
    makeMarker hmacDigestStub "r1".toList "secret".toList =
      "[[OC=r1.".toList ++ (hmacDigestStub "secret".toList "r1".toList).take 16 ++
        "]]".toList ∧
    bridgeMarkerExact (makeMarker hmacDigestStub "r1".toList "secret".toList) = true ∧
    getRequestId (some " a]b ".toList) "freshNanoid".toList = "a]b".toList ∧
    bridgeMarkerExact (makeMarker hmacDigestStub "a]b".toList "secret".toList) = false ∧
    resolveBridgeMarker (makeMarker hmacDigestStub "a]b".toList "secret".toList) = none ∧
    hasBridgeMarkerInAnchor
      (promptForSend "Say hi".toList
        (makeMarker hmacDigestStub "a]b".toList "secret".toList)) = false := by
  refine ⟨by decide, by decide, by decide, by decide, by decide, by decide⟩

/-! ### C9: the token bucket -/

/-- `refill`, written as one conditional. -/
theorem refill_eq (st : TokenBucketState) (now : ℚ) :
    st.refill now =
      (if max 0 ((now - st.lastRefill) / 1000) ≤ 0 then { st with lastRefill := now }
       else
         { st with
           lastRefill := now
           tokens := min st.capacity
             (st.tokens + max 0 ((now - st.lastRefill) / 1000) * st.refillPerSecond) }) :=
  rfl

/-- `refill` always stamps `lastRefill := now`. -/
theorem refill_lastRefill (st : TokenBucketState) (now : ℚ) :
    (st.refill now).lastRefill = now := by
  rw [refill_eq]
  split <;> rfl

/-- `refill` at the current `lastRefill` instant is the identity. -/
theorem refill_self (st : TokenBucketState) (now : ℚ) (h : st.lastRefill = now) :
    st.refill now = st := by
  rw [refill_eq]
  simp only [h, sub_self, zero_div, max_self, le_refl, if_pos]
  cases st
  simp_all

/-- `n` immediate `consume(1)` calls all succeed when the refilled bucket
holds at least `n` tokens; the final state is the refilled one minus `n`. -/
theorem consumeSeq_allowed (st : TokenBucketState) (now : ℚ) (n : ℕ)
    (htok : (n : ℚ) ≤ (st.refill now).tokens) :
    (st.consumeSeq now n).1 = true ∧
    (st.consumeSeq now n).2 =
      (if n = 0 then st
       else { st.refill now with tokens := (st.refill now).tokens - n }) := by
  induction n generalizing st with
  | zero => exact ⟨rfl, by simp [TokenBucketState.consumeSeq]⟩
  | succ n ih =>
    have h1 : (1 : ℚ) ≤ (st.refill now).tokens := by
      have h' : ((n : ℚ) + 1) ≤ (st.refill now).tokens := by push_cast at htok ⊢; linarith
      linarith [Nat.cast_nonneg (α := ℚ) n]
    have hcons : st.consume now 1 =
        ({ allowed := true, retryAfterSec := 0,
           remainingTokens := (st.refill now).tokens - 1 },
         { st.refill now with tokens := (st.refill now).tokens - 1 }) := by
      unfold TokenBucketState.consume
      rw [if_pos h1]
    have hlast : (st.refill now).lastRefill = now := refill_lastRefill st now
    have hnext := ih { st.refill now with tokens := (st.refill now).tokens - 1 }
      (by rw [refill_self _ _ (by simpa using hlast)]
          push_cast at htok ⊢
          linarith)
    have hstep : st.consumeSeq now (n + 1) =
        (({ st.refill now with
            tokens := (st.refill now).tokens - 1 } : TokenBucketState).consumeSeq now n) := by
      show (if (st.consume now 1).1.allowed then ((st.consume now 1).2).consumeSeq now n
            else (false, (st.consume now 1).2)) = _
      rw [hcons]
      rfl
    rw [hstep, hnext.1, hnext.2]
    refine ⟨rfl, ?_⟩
    by_cases hn : n = 0
    · subst hn
      simp
    · rw [if_neg hn, if_neg (Nat.succ_ne_zero n)]
      rw [refill_self _ _ (by simpa using hlast)]
      simp only [TokenBucketState.mk.injEq, and_true, true_and]
      push_cast
      ring

/-- C9, counterexample. With `rpm = 60`, `burst = 1`: one `consume(1)` at
`t = 0` empties the bucket; after `Δt = 2` seconds the claim demands at
least `⌊2·60/60⌋ = 2` further successful consumptions, but the refill is
capped at `burst = 1`, so running two `consume(1)` calls at `t = 2000 ms`
does not succeed in full. -/
theorem claim_C9_counterexample :
    ((TokenBucketState.init 60 1 0).consume 0 1).1.allowed = true ∧
    ((((TokenBucketState.init 60 1 0).consume 0 1).2).consumeSeq 2000 2).1 = false ∧
    ⌊(2 : ℚ) * 60 / 60⌋ = 2 := by
  have hst : (TokenBucketState.init 60 1 0).consume 0 1 =
      ({ allowed := true, retryAfterSec := 0, remainingTokens := 0 },
       { capacity := 1, refillPerSecond := 1, tokens := 0, lastRefill := 0 }) := by
    unfold TokenBucketState.init TokenBucketState.consume
    rw [refill_eq]
    norm_num
  refine ⟨by rw [hst], ?_, by norm_num⟩
  rw [hst]
  have h1 : ({ capacity := 1, refillPerSecond := 1, tokens := 0, lastRefill := 0 } :
      TokenBucketState).consume 2000 1 =
      ({ allowed := true, retryAfterSec := 0, remainingTokens := 0 },
       { capacity := 1, refillPerSecond := 1, tokens := 0, lastRefill := 2000 }) := by
    unfold TokenBucketState.consume
    rw [refill_eq]
    norm_num
  have h2 : ({ capacity := 1, refillPerSecond := 1, tokens := 0, lastRefill := 2000 } :
      TokenBucketState).consume 2000 1 =
      ({ allowed := false, retryAfterSec := 1, remainingTokens := 0 },
       { capacity := 1, refillPerSecond := 1, tokens := 0, lastRefill := 2000 }) := by
    unfold TokenBucketState.consume
    rw [refill_eq]
    norm_num
  show (if (({ capacity := 1, refillPerSecond := 1, tokens := 0, lastRefill := 0 } :
        TokenBucketState).consume 2000 1).1.allowed
      then ((({ capacity := 1, refillPerSecond := 1, tokens := 0, lastRefill := 0 } :
        TokenBucketState).consume 2000 1).2).consumeSeq 2000 1
      else (false, (({ capacity := 1, refillPerSecond := 1, tokens := 0, lastRefill := 0 } :
        TokenBucketState).consume 2000 1).2)).1 = false
  rw [h1]
  show (({ capacity := 1, refillPerSecond := 1, tokens := 0, lastRefill := 2000 } :
      TokenBucketState).consumeSeq 2000 1).1 = false
  show (if (({ capacity := 1, refillPerSecond := 1, tokens := 0, lastRefill := 2000 } :
        TokenBucketState).consume 2000 1).1.allowed
      then ((({ capacity := 1, refillPerSecond := 1, tokens := 0, lastRefill := 2000 } :
        TokenBucketState).consume 2000 1).2).consumeSeq 2000 0
      else (false, (({ capacity := 1, refillPerSecond := 1, tokens := 0, lastRefill := 2000 } :
        TokenBucketState).consume 2000 1).2)).1 = false
  rw [h2]
  rfl

/-- A `consume(1)` on a bucket without a token (and no elapsed time) is
denied with `retryAfterSec = max 1 ⌈needed / refillPerSecond⌉` and leaves
the state unchanged. -/
theorem consume_denied (st : TokenBucketState) (now : ℚ)
    (h : st.lastRefill = now) (htok : st.tokens < 1) (hr : 0 < st.refillPerSecond) :
    st.consume now 1 =
      ({ allowed := false,
         retryAfterSec := max 1 ⌈(1 - st.tokens) / st.refillPerSecond⌉,
         remainingTokens := st.tokens }, st) := by
  unfold TokenBucketState.consume
  rw [refill_self _ _ h]
  rw [if_neg (not_le.mpr htok)]
  simp only [if_pos hr]

/-- The token count after refilling a bucket that was emptied at `t0`. -/
theorem refill_tokens_from (cap rps t0 now : ℚ) :
    (({ capacity := cap, refillPerSecond := rps, tokens := 0, lastRefill := t0 } :
        TokenBucketState).refill now).tokens =
      if max 0 ((now - t0) / 1000) ≤ 0 then 0
      else min cap (max 0 ((now - t0) / 1000) * rps) := by
  rw [refill_eq]
  split
  · rfl
  · show min cap (0 + max 0 ((now - t0) / 1000) * rps) = _
    rw [zero_add]

/-- C9, amended. For the token bucket with `rpm > 0` and natural `burst`:
from a full bucket, `burst` immediate `consume(1)` calls all succeed and
empty it; the next `consume(1)` at the same instant is denied with
`retry_after_sec ≥ 1`; and after a further `Δt ≥ 0` seconds with no
intervening consumption, at least `min(⌊Δt·rpm/60⌋, burst)` additional
`consume(1)` calls succeed (the refill adds `rpm/60` tokens per second but
is capped at `burst` — the cap is what the counterexample forces into the
original claim). -/
theorem claim_C9_token_bucket (rpm : ℚ) (b : ℕ) (t0 dt : ℚ)
    (hrpm : 0 < rpm) (hb : 0 < b) (hdt : 0 ≤ dt) :
    ((TokenBucketState.init rpm b t0).consumeSeq t0 b).1 = true ∧
    ((TokenBucketState.init rpm b t0).consumeSeq t0 b).2.tokens = 0 ∧
    ((((TokenBucketState.init rpm b t0).consumeSeq t0 b).2).consume t0 1).1.allowed = false ∧
    1 ≤ ((((TokenBucketState.init rpm b t0).consumeSeq t0 b).2).consume t0 1).1.retryAfterSec ∧
    (((((TokenBucketState.init rpm b t0).consumeSeq t0 b).2).consume t0 1).2.consumeSeq
      (t0 + 1000 * dt) (min (⌊dt * rpm / 60⌋).toNat b)).1 = true := by
  have hinitlast : (TokenBucketState.init rpm b t0).lastRefill = t0 := rfl
  have hrefill0 : (TokenBucketState.init rpm b t0).refill t0 = TokenBucketState.init rpm b t0 :=
    refill_self _ _ hinitlast
  have hseq := consumeSeq_allowed (TokenBucketState.init rpm b t0) t0 b
    (by rw [hrefill0]; exact le_refl _)
  have hstB : ((TokenBucketState.init rpm b t0).consumeSeq t0 b).2 =
      { capacity := b, refillPerSecond := rpm / 60, tokens := 0, lastRefill := t0 } := by
    rw [hseq.2, if_neg (Nat.pos_iff_ne_zero.mp hb), hrefill0]
    show ({ TokenBucketState.init rpm b t0 with
      tokens := (TokenBucketState.init rpm b t0).tokens - b } : TokenBucketState) = _
    simp only [TokenBucketState.init, TokenBucketState.mk.injEq]
    norm_num
  have hden : ((((TokenBucketState.init rpm b t0).consumeSeq t0 b).2).consume t0 1) =
      ({ allowed := false,
         retryAfterSec := max 1 ⌈(1 - (0:ℚ)) / (rpm / 60)⌉,
         remainingTokens := 0 },
       { capacity := b, refillPerSecond := rpm / 60, tokens := 0, lastRefill := t0 }) := by
    rw [hstB]
    exact consume_denied _ _ rfl (by norm_num) (div_pos hrpm (by norm_num))
  refine ⟨hseq.1, by rw [hstB], by rw [hden], by rw [hden]; exact le_max_left _ _, ?_⟩
  rw [hden]
  show ((({ capacity := b, refillPerSecond := rpm / 60, tokens := 0, lastRefill := t0 } :
      TokenBucketState)).consumeSeq (t0 + 1000 * dt) (min (⌊dt * rpm / 60⌋).toNat b)).1 = true
  apply (consumeSeq_allowed _ _ _ ?_).1
  -- the refilled bucket at t0 + 1000·dt holds min(b, dt·rpm/60) tokens
  rw [refill_tokens_from]
  have harith : (t0 + 1000 * dt - t0) / 1000 = dt := by
    have he : t0 + 1000 * dt - t0 = 1000 * dt := by ring
    rw [he]
    exact mul_div_cancel_left₀ dt (by norm_num)
  rw [harith, max_eq_right hdt]
  by_cases hz : dt ≤ 0
  · have hdt0 : dt = 0 := le_antisymm hz hdt
    subst hdt0
    rw [if_pos (le_refl (0 : ℚ))]
    simp
  · rw [if_neg hz]
    push_neg at hz
    have hx : (0 : ℚ) ≤ dt * rpm / 60 := by positivity
    have hcastfloor : ((⌊dt * rpm / 60⌋.toNat : ℕ) : ℚ) = ((⌊dt * rpm / 60⌋ : ℤ) : ℚ) := by
      exact_mod_cast congrArg (fun z : ℤ => (z : ℚ))
        (Int.toNat_of_nonneg (Int.floor_nonneg.mpr hx))
    have hfloor : ((⌊dt * rpm / 60⌋.toNat : ℕ) : ℚ) ≤ dt * rpm / 60 := by
      rw [hcastfloor]
      exact Int.floor_le _
    refine le_min ?_ ?_
    · exact_mod_cast min_le_right _ _
    · calc ((min ⌊dt * rpm / 60⌋.toNat b : ℕ) : ℚ)
          ≤ ((⌊dt * rpm / 60⌋.toNat : ℕ) : ℚ) := by exact_mod_cast min_le_left _ _
        _ ≤ dt * rpm / 60 := hfloor
        _ = dt * (rpm / 60) := by ring

/-- Witness for the amended C9 at `rpm = 120`, `burst = 2`, `Δt = 1 s`. -/
theorem claim_C9_token_bucket_witness :
    ((TokenBucketState.init 120 2 0).consumeSeq 0 2).1 = true ∧
    ((TokenBucketState.init 120 2 0).consumeSeq 0 2).2.tokens = 0 ∧
    ((((TokenBucketState.init 120 2 0).consumeSeq 0 2).2).consume 0 1).1.allowed = false ∧
    1 ≤ ((((TokenBucketState.init 120 2 0).consumeSeq 0 2).2).consume 0 1).1.retryAfterSec ∧
    (((((TokenBucketState.init 120 2 0).consumeSeq 0 2).2).consume 0 1).2.consumeSeq
      (0 + 1000 * 1) (min (⌊(1 : ℚ) * 120 / 60⌋).toNat 2)).1 = true :=
  claim_C9_token_bucket 120 2 0 1 (by norm_num) (by norm_num) (by norm_num)

/-- `mapDelete` reports `false` only when the key is absent. -/
theorem mapDelete_false_get {m : List (Str × Str)} {k : Str}
    (h : (mapDelete m k).2 = false) : mapGet m k = none := by
  induction m with
  | nil => rfl
  | cons kv t ih =>
    obtain ⟨k1, v1⟩ := kv
    by_cases he : k1 = k
    · rw [show mapDelete ((k1, v1) :: t) k = (t, true) from by simp [mapDelete, he]] at h
      cases h
    · have h2 : (mapDelete t k).2 = false := by simpa [mapDelete, he] using h
      simpa [mapGet, he] using ih h2

/-- `SessionStore.delete`, unfolded. -/
theorem store_delete_eq (store : SessionStore) (fs : FsState) (tmp slot : Str) :
    store.delete fs tmp slot =
      (if (mapDelete store.bindings (normalizeSessionSlot (some slot))).2 then
        ({ store with
            bindings := (mapDelete store.bindings (normalizeSessionSlot (some slot))).1 },
         applyFsOps fs (SessionStore.persistOps { store with
            bindings := (mapDelete store.bindings (normalizeSessionSlot (some slot))).1 } tmp),
         SessionStore.persistOps { store with
            bindings := (mapDelete store.bindings (normalizeSessionSlot (some slot))).1 } tmp)
       else (store, fs, [])) := rfl

/-- `SessionStore.set` on a blank conversation id is the delete path. -/
theorem store_set_none (store : SessionStore) (fs : FsState) (tmp slot conversationId : Str)
    (h : normalizeConversationId (some conversationId) = none) :
    store.set fs tmp slot conversationId =
      store.delete fs tmp (normalizeSessionSlot (some slot)) := by
  unfold SessionStore.set
  rw [h]

/-- `SessionStore.set` on a non-blank conversation id stores the normalized
pair and persists. -/
theorem store_set_some (store : SessionStore) (fs : FsState) (tmp slot conversationId n : Str)
    (h : normalizeConversationId (some conversationId) = some n) :
    store.set fs tmp slot conversationId =
      ({ store with
          bindings := mapSet store.bindings (normalizeSessionSlot (some slot)) n },
       applyFsOps fs (SessionStore.persistOps { store with
          bindings := mapSet store.bindings (normalizeSessionSlot (some slot)) n } tmp),
       SessionStore.persistOps { store with
          bindings := mapSet store.bindings (normalizeSessionSlot (some slot)) n } tmp) := by
  unfold SessionStore.set
  rw [h]

/-- C10: `FileSessionBindingStore.set` with a conversation id that trims to
the empty string never stores a binding — it deletes any existing binding
for the normalized slot, so `get(slot)` then returns `undefined`, the
resulting bindings are a subset of the previous ones, and (for any id,
blank or not) the store never holds an empty or whitespace-only
conversation id for any slot. -/
theorem claim_C10_blank_id_never_stored (store : SessionStore) (fs : FsState)
    (tmp slot conversationId : Str)
    (hnd : (store.bindings.map Prod.fst).Nodup)
    (hgood : ∀ kv ∈ store.bindings, jsTrim kv.2 = kv.2 ∧ kv.2 ≠ []) :
    (jsTrim conversationId = [] →
      SessionStore.get ((store.set fs tmp slot conversationId).1) slot = none ∧
      ∀ kv ∈ ((store.set fs tmp slot conversationId).1).bindings, kv ∈ store.bindings) ∧
    ∀ kv ∈ ((store.set fs tmp slot conversationId).1).bindings,
      jsTrim kv.2 = kv.2 ∧ kv.2 ≠ [] := by
  rcases hnc : normalizeConversationId (some conversationId) with _ | n
  · have hseteq := store_set_none store fs tmp slot conversationId hnc
    have hdel := store_delete_eq store fs tmp (normalizeSessionSlot (some slot))
    rw [normalizeSessionSlot_out (some slot)] at hdel
    by_cases had : (mapDelete store.bindings (normalizeSessionSlot (some slot))).2
    · rw [if_pos had] at hdel
      have hstore1 : (store.set fs tmp slot conversationId).1 =
          { store with
            bindings := (mapDelete store.bindings (normalizeSessionSlot (some slot))).1 } := by
        rw [hseteq, hdel]
      refine ⟨fun _ => ⟨?_, ?_⟩, ?_⟩
      · rw [hstore1]
        unfold SessionStore.get
        exact mapGet_mapDelete_self _ _ hnd
      · intro kv hkv
        rw [hstore1] at hkv
        exact mapDelete_values_subset hkv
      · intro kv hkv
        rw [hstore1] at hkv
        exact hgood kv (mapDelete_values_subset hkv)
    · rw [if_neg had] at hdel
      have hstore1 : (store.set fs tmp slot conversationId).1 = store := by
        rw [hseteq, hdel]
      refine ⟨fun _ => ⟨?_, ?_⟩, ?_⟩
      · rw [hstore1]
        unfold SessionStore.get
        exact mapDelete_false_get (by simpa using had)
      · intro kv hkv
        rw [hstore1] at hkv
        exact hkv
      · intro kv hkv
        rw [hstore1] at hkv
        exact hgood kv hkv
  · have hseteq := store_set_some store fs tmp slot conversationId n hnc
    have hstore1 : (store.set fs tmp slot conversationId).1 =
        { store with
          bindings := mapSet store.bindings (normalizeSessionSlot (some slot)) n } := by
      rw [hseteq]
    refine ⟨fun hblank => ?_, ?_⟩
    · exfalso
      rw [normalizeConversationId_some, hblank] at hnc
      simp at hnc
    · intro kv hkv
      rw [hstore1] at hkv
      rcases mapSet_values_subset hkv with heq | hmem
      · subst heq
        exact normalizeConversationId_out hnc
      · exact hgood kv hmem

/-- Witness for C10: a store holding `default ↦ c1`; `set` with a
whitespace-only id under slot `" Default "` deletes the binding. -/
theorem claim_C10_blank_id_never_stored_witness :
    ((([(("default".toList : Str), ("c1".toList : Str))].map Prod.fst)).Nodup ∧
      ∀ kv ∈ [(("default".toList : Str), ("c1".toList : Str))],
        jsTrim kv.2 = kv.2 ∧ kv.2 ≠ []) ∧
    ((jsTrim " ".toList = [] →
      SessionStore.get ((SessionStore.set
        { filePath := "/tmp/b.json".toList,
          bindings := [("default".toList, "c1".toList)],
          loaded := true } [] "t".toList " Default ".toList " ".toList).1)
        " Default ".toList = none ∧
      ∀ kv ∈ ((SessionStore.set
        { filePath := "/tmp/b.json".toList,
          bindings := [("default".toList, "c1".toList)],
          loaded := true } [] "t".toList " Default ".toList " ".toList).1).bindings,
        kv ∈ [(("default".toList : Str), ("c1".toList : Str))]) ∧
    ∀ kv ∈ ((SessionStore.set
        { filePath := "/tmp/b.json".toList,
          bindings := [("default".toList, "c1".toList)],
          loaded := true } [] "t".toList " Default ".toList " ".toList).1).bindings,
      jsTrim kv.2 = kv.2 ∧ kv.2 ≠ []) :=
  ⟨⟨by decide, by decide⟩,
    claim_C10_blank_id_never_stored
      { filePath := "/tmp/b.json".toList,
        bindings := [("default".toList, "c1".toList)],
        loaded := true } [] "t".toList " Default ".toList " ".toList
      (by decide) (by decide)⟩

/-- C3: for an anchor whose `resolveBridgeMarker` yields a bridge marker:
(1) when the marker does not occur in the scraped text, `extractAfterMarker`
raises `ui_error` with reason `marker_not_found`; (2) the snapshot-fallback
wrapper never returns a `snapshot_delta`-mode result; (3) every extraction
error propagates unchanged through the wrapper (strict mode — no fallback). -/
theorem claim_C3_strict_marker_mode (fullText marker : Str) (options : ExtractOptions)
    (previousFullText : Str) (bm : Str)
    (hbm : resolveBridgeMarker marker = some bm) :
    (jsLastIndexOf fullText bm = none →
      extractAfterMarker fullText marker options =
        .error { code := .ui_error,
                 message := "Current marker not yet visible in scraped text",
                 reason := some "marker_not_found" }) ∧
    (∀ r, extractAfterMarkerWithSnapshotFallback fullText marker options previousFullText =
        .ok r → r.mode = ExtractionMode.marker) ∧
    (∀ e, extractAfterMarker fullText marker options = .error e →
      extractAfterMarkerWithSnapshotFallback fullText marker options previousFullText =
        .error e) := by
  refine ⟨?_, ?_, ?_⟩
  · intro h
    simp only [extractAfterMarker, hbm, h]
  · intro r hr
    cases hext : extractAfterMarker fullText marker options with
    | ok t =>
      rw [show extractAfterMarkerWithSnapshotFallback fullText marker options previousFullText
          = .ok { text := t, mode := .marker } from by
        simp only [extractAfterMarkerWithSnapshotFallback, hext]] at hr
      injection hr with h2
      rw [← h2]
    | error e =>
      rw [show extractAfterMarkerWithSnapshotFallback fullText marker options previousFullText
          = .error e from by
        simp [extractAfterMarkerWithSnapshotFallback, hext, hbm]] at hr
      exact Except.noConfusion hr
  · intro e he
    simp [extractAfterMarkerWithSnapshotFallback, hbm, he]

/-- Witness for C3 at a concrete marker anchor and a scraped text that does
not contain the marker. -/
theorem claim_C3_strict_marker_mode_witness :
    resolveBridgeMarker "[[OC=r1.TAG]]".toList = some "[[OC=r1.TAG]]".toList ∧
    ((jsLastIndexOf "no marker here".toList "[[OC=r1.TAG]]".toList = none →
      extractAfterMarker "no marker here".toList "[[OC=r1.TAG]]".toList
        { uiLabelRegenerate := "Regenerate".toList, uiLabelContinue := "Continue generating".toList } =
        .error { code := .ui_error,
                 message := "Current marker not yet visible in scraped text",
                 reason := some "marker_not_found" }) ∧
    (∀ r, extractAfterMarkerWithSnapshotFallback "no marker here".toList
        "[[OC=r1.TAG]]".toList
        { uiLabelRegenerate := "Regenerate".toList, uiLabelContinue := "Continue generating".toList } "prev".toList = .ok r →
      r.mode = ExtractionMode.marker) ∧
    (∀ e, extractAfterMarker "no marker here".toList "[[OC=r1.TAG]]".toList
        { uiLabelRegenerate := "Regenerate".toList, uiLabelContinue := "Continue generating".toList } = .error e →
      extractAfterMarkerWithSnapshotFallback "no marker here".toList
        "[[OC=r1.TAG]]".toList
        { uiLabelRegenerate := "Regenerate".toList, uiLabelContinue := "Continue generating".toList } "prev".toList = .error e)) :=
  ⟨by decide,
    claim_C3_strict_marker_mode "no marker here".toList "[[OC=r1.TAG]]".toList
        { uiLabelRegenerate := "Regenerate".toList, uiLabelContinue := "Continue generating".toList }
      "prev".toList "[[OC=r1.TAG]]".toList (by decide)⟩

/-- C4: the poll loop's typing-cursor test is against the two-character
string U+00E2 U+2013 ("â—") — a mojibake of the block glyph ▍ (U+258D) —
so a scraped text that still shows the real typing cursor ▍ does not fail
the "no typing-cursor glyph present" gate: with `stable_checks = 3` the
loop below terminates successfully on its fourth tick even though every
scraped text contains ▍. Evaluated on a concrete trace. -/
theorem claim_C4_typing_cursor_mojibake_eval :
    includesL ("Say hi\n\n[[OC=r1.ABCDEF0123456789]]\nHello there!\nRegenerate\n▍".toList)
      [Char.ofNat 0x258d] = true ∧
    includesL ("Say hi\n\n[[OC=r1.ABCDEF0123456789]]\nHello there!\nRegenerate\n▍".toList)
      pollTypingCursorLiteral = false ∧
    pollForStableText
      { maxWaitSec := 300, pollIntervalSec := 1, stableChecks := 3,
        scrapeCallTimeoutMs := 15000, extractNoIndicatorStableMs := 8000,
        requireCompletionIndicators := false, uiLabelRegenerate := "Regenerate".toList,
        uiLabelContinue := "Continue generating".toList, uiErrorPatterns := [] }
      "[[OC=r1.ABCDEF0123456789]]".toList
      "Say hi\n\n[[OC=r1.ABCDEF0123456789]]".toList
      [] 0
      [⟨1000, .ok ("Say hi\n\n[[OC=r1.ABCDEF0123456789]]\nHello there!\nRegenerate\n▍".toList)⟩,
       ⟨2000, .ok ("Say hi\n\n[[OC=r1.ABCDEF0123456789]]\nHello there!\nRegenerate\n▍".toList)⟩,
       ⟨3000, .ok ("Say hi\n\n[[OC=r1.ABCDEF0123456789]]\nHello there!\nRegenerate\n▍".toList)⟩,
       ⟨4000, .ok ("Say hi\n\n[[OC=r1.ABCDEF0123456789]]\nHello there!\nRegenerate\n▍".toList)⟩] =
      .ok { fullText :=
              "Say hi\n\n[[OC=r1.ABCDEF0123456789]]\nHello there!\nRegenerate\n▍".toList,
            extractedText := "Hello there!".toList,
            extractionMode := ExtractionMode.marker } := by
  decide

/-- Every `.ok` path of `extractAfterMarker` is guarded by
`isMeaningfulExtractedText`. -/
theorem extractAfterMarker_ok_meaningful (fullText anchor : Str) (options : ExtractOptions)
    (t : Str) (h : extractAfterMarker fullText anchor options = .ok t) :
    isMeaningfulExtractedText t anchor = true := by
  simp only [extractAfterMarker] at h
  repeat' split at h
  all_goals try (rename_i heq2; repeat' split at heq2)
  all_goals simp_all

/-- Every `.ok` path of `extractAfterMarkerWithSnapshotFallback` is guarded
by `isMeaningfulExtractedText`. -/
theorem extractFallback_ok_meaningful (fullText anchor : Str) (options : ExtractOptions)
    (previousFullText : Str) (r : ExtractFallbackResult)
    (h : extractAfterMarkerWithSnapshotFallback fullText anchor options previousFullText =
      .ok r) :
    isMeaningfulExtractedText r.text anchor = true := by
  cases hext : extractAfterMarker fullText anchor options with
  | ok t =>
    rw [show extractAfterMarkerWithSnapshotFallback fullText anchor options previousFullText
        = .ok { text := t, mode := .marker } from by
      simp only [extractAfterMarkerWithSnapshotFallback, hext]] at h
    injection h with h2
    rw [← h2]
    exact extractAfterMarker_ok_meaningful fullText anchor options t hext
  | error e =>
    simp only [extractAfterMarkerWithSnapshotFallback, hext] at h
    repeat' split at h
    all_goals try simp_all
    all_goals (subst h; simp_all)

/-- C1: the sent prompt is the expanded prompt, a blank line, then the
marker (hence ends with the marker); every text returned on any `.ok` path
of `extractAfterMarker` / `extractAfterMarkerWithSnapshotFallback` passes
`isMeaningfulExtractedText` against the sent prompt; and a text passing
that check contains no bridge-marker substring (after glyph stripping and
trimming), differs from the sent prompt, is not a prompt echo (the ≥120
chars / multi-line prompt-substring test), and does not consist entirely
of UI-noise lines. -/
theorem claim_C1_sent_prompt_and_extracted_text (prompt marker fullText previousFullText : Str)
    (options : ExtractOptions) :
    (promptForSend prompt marker = prompt ++ "\n\n".toList ++ marker ∧
     marker <:+ promptForSend prompt marker) ∧
    (∀ t, extractAfterMarker fullText (promptForSend prompt marker) options = .ok t →
      isMeaningfulExtractedText t (promptForSend prompt marker) = true) ∧
    (∀ r, extractAfterMarkerWithSnapshotFallback fullText (promptForSend prompt marker)
        options previousFullText = .ok r →
      isMeaningfulExtractedText r.text (promptForSend prompt marker) = true) ∧
    (∀ t, isMeaningfulExtractedText t (promptForSend prompt marker) = true →
      bridgeMarkerInText (jsTrim (stripNonMeaningfulGlyphs t)) = false ∧
      jsTrim (stripNonMeaningfulGlyphs t) ≠
        jsTrim (stripNonMeaningfulGlyphs (promptForSend prompt marker)) ∧
      isLikelyPromptEcho (jsTrim (stripNonMeaningfulGlyphs t))
        (promptForSend prompt marker) = false ∧
      ¬((((splitNl (jsTrim (stripNonMeaningfulGlyphs t))).map normalizeLine).filter
          (fun l => l.length > 0)).all (fun line => uiNoiseLines.contains line)) = true) := by
  refine ⟨⟨rfl, ?_⟩, ?_, ?_, ?_⟩
  · exact List.suffix_append (prompt ++ "\n\n".toList) marker
  · intro t ht
    exact extractAfterMarker_ok_meaningful fullText (promptForSend prompt marker) options t ht
  · intro r hr
    exact extractFallback_ok_meaningful fullText (promptForSend prompt marker) options
      previousFullText r hr
  · intro t ht
    simp only [isMeaningfulExtractedText] at ht
    repeat' split at ht
    all_goals refine ⟨by simp_all, by simp_all, by simp_all, by simp_all⟩

/-- Witness for C1: a concrete successful extraction against the sent
prompt `Say hi\n\n[[OC=r1.ABCDEF0123456789]]`. -/
theorem claim_C1_sent_prompt_and_extracted_text_witness :
    extractAfterMarker
      ("Say hi\n\n[[OC=r1.ABCDEF0123456789]]\nHello there!\nRegenerate".toList)
      (promptForSend "Say hi".toList "[[OC=r1.ABCDEF0123456789]]".toList)
      { uiLabelRegenerate := "Regenerate".toList,
        uiLabelContinue := "Continue generating".toList }
      = .ok "Hello there!".toList ∧
    isMeaningfulExtractedText "Hello there!".toList
      (promptForSend "Say hi".toList "[[OC=r1.ABCDEF0123456789]]".toList) = true :=
  ⟨by decide,
    (claim_C1_sent_prompt_and_extracted_text "Say hi".toList
      "[[OC=r1.ABCDEF0123456789]]".toList
      ("Say hi\n\n[[OC=r1.ABCDEF0123456789]]\nHello there!\nRegenerate".toList) []
      { uiLabelRegenerate := "Regenerate".toList,
        uiLabelContinue := "Continue generating".toList }).2.1
      "Hello there!".toList (by decide)⟩

/-- Characters with equal code points are equal. -/
theorem char_eq_of_toNat {a b : Char} (h : a.toNat = b.toNat) : a = b :=
  Char.eq_of_val_eq (UInt32.ext h)

/-- `Char.ofNat` of a code point below the surrogates reproduces the char. -/
theorem charOfNat_toNat_eq {c : Char} (h : c.toNat < 55296) : Char.ofNat c.toNat = c :=
  char_eq_of_toNat (charOfNat_toNat_small h)

/-- `hexVal` inverts `hexDigitChar` below 16. -/
theorem hexVal_hexDigitChar {n : Nat} (h : n < 16) : hexVal (hexDigitChar n) = some n := by
  interval_cases n <;> decide

/-- The string-body parser inverts `JSON.stringify` escaping. -/
theorem jsonParseStrBody_escape (s rest : Str) :
    jsonParseStrBody (jsonEscape s ++ ('"' :: rest)) = some (s, rest) := by
  induction s with
  | nil => rfl
  | cons c s ih =>
    have hesc : jsonEscape (c :: s) = jsonEscapeChar c ++ jsonEscape s := rfl
    rw [hesc, List.append_assoc]
    by_cases h1 : c = '"'
    · subst h1; simp [jsonEscapeChar, jsonParseStrBody, ih]
    · by_cases h2 : c = '\\'
      · subst h2; simp [jsonEscapeChar, jsonParseStrBody, ih]
      · by_cases h3 : c.toNat = 8
        · have : c = Char.ofNat 8 := by rw [← h3]; exact (charOfNat_toNat_eq (by omega)).symm
          subst this
          simp [jsonEscapeChar, jsonParseStrBody, ih]
        · by_cases h4 : c = '\t'
          · subst h4; simp [jsonEscapeChar, jsonParseStrBody, ih, h3]
          · by_cases h5 : c = '\n'
            · subst h5; simp [jsonEscapeChar, jsonParseStrBody, ih]
            · by_cases h6 : c.toNat = 12
              · have : c = Char.ofNat 12 := by rw [← h6]; exact (charOfNat_toNat_eq (by omega)).symm
                subst this
                simp [jsonEscapeChar, jsonParseStrBody, ih]
              · by_cases h7 : c = '\r'
                · subst h7; simp [jsonEscapeChar, jsonParseStrBody, ih]
                · by_cases h8 : c.toNat < 0x20
                  · rw [show jsonEscapeChar c = ['\\', 'u', '0', '0', hexDigitChar (c.toNat / 16), hexDigitChar (c.toNat % 16)] from by
                      simp [jsonEscapeChar, h1, h2, h3, h4, h5, h6, h7, h8]]
                    simp only [List.cons_append, List.nil_append]
                    rw [show jsonParseStrBody ('\\' :: 'u' :: '0' :: '0' :: hexDigitChar (c.toNat / 16) :: hexDigitChar (c.toNat % 16) :: (jsonEscape s ++ ('"' :: rest))) = do
                        let va ← hexVal '0'
                        let vb ← hexVal '0'
                        let vc ← hexVal (hexDigitChar (c.toNat / 16))
                        let vd ← hexVal (hexDigitChar (c.toNat % 16))
                        let (s2, r) ← jsonParseStrBody (jsonEscape s ++ ('"' :: rest))
                        some (Char.ofNat (((va * 16 + vb) * 16 + vc) * 16 + vd) :: s2, r) from rfl]
                    rw [hexVal_hexDigitChar (by omega), hexVal_hexDigitChar (by omega)]
                    simp [show hexVal '0' = some 0 from rfl, ih]
                    rw [show c.toNat / 16 * 16 + c.toNat % 16 = c.toNat from by omega]
                    exact charOfNat_toNat_eq (by omega)
                  · rw [show jsonEscapeChar c = [c] from by
                      simp [jsonEscapeChar, h1, h2, h3, h4, h5, h6, h7, h8]]
                    simp only [List.cons_append, List.nil_append]
                    simp [jsonParseStrBody, h1, h2, h8, ih]

theorem skipJsonWs_idem (cs : Str) : skipJsonWs (skipJsonWs cs) = skipJsonWs cs :=
  dropWhile_idem _ _

theorem jsonParseMembers_skip (fuel : Nat) (cs : Str) :
    jsonParseMembers fuel (skipJsonWs cs) = jsonParseMembers fuel cs := by
  cases fuel with
  | zero => rfl
  | succ f =>
    simp only [jsonParseMembers]
    rw [skipJsonWs_idem]

theorem jsonParseMembers_newline (fuel : Nat) (cs : Str) :
    jsonParseMembers fuel ('\n' :: cs) = jsonParseMembers fuel cs := by
  cases fuel with
  | zero => rfl
  | succ f =>
    simp only [jsonParseMembers]
    rfl

theorem jsonEscape_nil : jsonEscape [] = [] := rfl

theorem jsonParseVal_strVal (f : Nat) (v rest : Str) :
    jsonParseVal (f + 1) (' ' :: (jsonQuote v ++ rest)) = some (.str v, rest) := by
  have hq : (' ' :: (jsonQuote v ++ rest)) =
      ' ' :: '"' :: (jsonEscape v ++ ('"' :: rest)) := by
    simp [jsonQuote]
  rw [hq]
  simp [jsonParseVal, show skipJsonWs (' ' :: '"' :: (jsonEscape v ++ ('"' :: rest))) =
    '"' :: (jsonEscape v ++ ('"' :: rest)) from rfl, jsonParseStrBody_escape]


theorem intercalate_singleton (sep a : Str) : List.intercalate sep [a] = a := by
  simp [List.intercalate, List.intersperse]

theorem intercalate_cons2 (sep a b : Str) (l : List Str) :
    List.intercalate sep (a :: b :: l) = a ++ sep ++ List.intercalate sep (b :: l) := by
  simp [List.intercalate, List.intersperse]

theorem parseMembers_line (f : Nat) (k v tail : Str) :
    jsonParseMembers (f + 2) (bindingsMemberLine (k, v) ++ tail) =
      (match skipJsonWs tail with
       | ',' :: r4 =>
         (match jsonParseMembers (f + 1) r4 with
          | some (ms, r5) => some (((k, Json.str v)) :: ms, r5)
          | none => none)
       | '}' :: r4 => some ([(k, Json.str v)], r4)
       | _ => none) := by
  have hline : bindingsMemberLine (k, v) ++ tail =
      ' ' :: ' ' :: ' ' :: ' ' ::
        ('"' :: (jsonEscape k ++ ('"' :: (':' :: (' ' :: (jsonQuote v ++ tail)))))) := by
    simp [bindingsMemberLine, jsonQuote]
  rw [hline]
  have hskip : skipJsonWs (' ' :: ' ' :: ' ' :: ' ' ::
      ('"' :: (jsonEscape k ++ ('"' :: (':' :: (' ' :: (jsonQuote v ++ tail))))))) =
      '"' :: (jsonEscape k ++ ('"' :: (':' :: (' ' :: (jsonQuote v ++ tail))))) := rfl
  simp only [jsonParseMembers, hskip, jsonParseStrBody_escape]
  have hskip2 : skipJsonWs (':' :: (' ' :: (jsonQuote v ++ tail))) =
      ':' :: (' ' :: (jsonQuote v ++ tail)) := rfl
  simp only [hskip2, jsonParseVal_strVal]


theorem parseMembers_line_comma (f : Nat) (k v X : Str) :
    jsonParseMembers (f + 2) (bindingsMemberLine (k, v) ++ (",\n".toList ++ X)) =
      (match jsonParseMembers (f + 1) ('\n' :: X) with
       | some (ms, r5) => some (((k, Json.str v)) :: ms, r5)
       | none => none) := by
  rw [parseMembers_line]
  rfl

theorem parseMembers_line_close (f : Nat) (k v rest2 : Str) :
    jsonParseMembers (f + 2) (bindingsMemberLine (k, v) ++ ("\n  \x7d".toList ++ rest2)) =
      some ([(k, Json.str v)], rest2) := by
  rw [parseMembers_line]
  rfl

theorem parseMembers_serialized (kvs : List (Str × Str)) :
    ∀ (kv : Str × Str) (f : Nat), kvs.length ≤ f →
    jsonParseMembers (f + 2)
      (List.intercalate (",\n".toList) ((kv :: kvs).map bindingsMemberLine) ++
        "\n  \x7d\n\x7d\n".toList) =
    some ((kv :: kvs).map (fun p => (p.1, Json.str p.2)), "\n\x7d\n".toList) := by
  induction kvs with
  | nil =>
    intro kv f _
    obtain ⟨k, v⟩ := kv
    rw [List.map_singleton, intercalate_singleton,
      show ("\n  \x7d\n\x7d\n".toList : Str) = "\n  \x7d".toList ++ "\n\x7d\n".toList from rfl,
      parseMembers_line_close]
    rfl
  | cons kv2 rest ih =>
    intro kv f hf
    obtain ⟨k, v⟩ := kv
    have hf1 : rest.length + 1 ≤ f := by simpa using hf
    obtain ⟨f2, rfl⟩ : ∃ f2, f = f2 + 1 := ⟨f - 1, by omega⟩
    rw [List.map_cons, List.map_cons (f := bindingsMemberLine) (l := rest),
      intercalate_cons2, List.append_assoc, List.append_assoc,
      parseMembers_line_comma (f2 + 1)]
    have hn : f2 + 1 + 1 = f2 + 2 := rfl
    rw [hn, jsonParseMembers_newline]
    have hih := ih kv2 f2 (by omega)
    simp only [List.map_cons] at hih
    rw [hih]
    rfl


theorem line_ge_one (p : Str × Str) : 1 ≤ (bindingsMemberLine p).length := by
  simp [bindingsMemberLine]

theorem intercalate_length_ge (sep : Str) :
    ∀ (l : List Str), (∀ a ∈ l, 1 ≤ a.length) → l.length ≤ (List.intercalate sep l).length := by
  intro l
  induction l with
  | nil => intro _; simp
  | cons a t ih =>
    intro h
    cases t with
    | nil => simpa [intercalate_singleton] using h a (by simp)
    | cons b t2 =>
      rw [intercalate_cons2]
      have h1 := h a (by simp)
      have h2 := ih (fun x hx => h x (by simp [hx]))
      simp only [List.length_append, List.length_cons] at h2 ⊢
      omega

theorem serializeBindings_length (k v : Str) (kvs : List (Str × Str)) :
    kvs.length + 5 ≤ (serializeBindings ((k, v) :: kvs)).length := by
  have hser : serializeBindings ((k, v) :: kvs) =
      "\x7b\n  \"bindings\": \x7b\n".toList ++
        (List.intercalate (",\n".toList) (((k, v) :: kvs).map bindingsMemberLine) ++
          "\n  \x7d\n\x7d\n".toList) := by
    simp [serializeBindings]
  rw [hser]
  have hlines := intercalate_length_ge (",\n".toList)
    (((k, v) :: kvs).map bindingsMemberLine) (by
      intro a ha
      obtain ⟨p, _, rfl⟩ := List.mem_map.mp ha
      exact line_ge_one p)
  simp only [List.length_append, List.length_map, List.length_cons] at hlines ⊢
  have e1 : ("\x7b\n  \"bindings\": \x7b\n".toList : Str).length = 18 := rfl
  have e2 : ("\n  \x7d\n\x7d\n".toList : Str).length = 7 := rfl
  omega

theorem line_shape (k v : Str) (X : Str) :
    bindingsMemberLine (k, v) ++ X =
      ' ' :: ' ' :: ' ' :: ' ' ::
        ('"' :: (jsonEscape k ++ ('"' :: (':' :: (' ' :: (jsonQuote v ++ X)))))) := by
  simp [bindingsMemberLine, jsonQuote]

theorem intercalate_lines_shape (k v : Str) (kvs : List (Str × Str)) :
    ∃ S : Str,
      List.intercalate (",\n".toList) (((k, v) :: kvs).map bindingsMemberLine) ++
        "\n  \x7d\n\x7d\n".toList = ' ' :: ' ' :: ' ' :: ' ' :: ('"' :: S) := by
  cases kvs with
  | nil =>
    refine ⟨jsonEscape k ++ ('"' :: (':' :: (' ' :: (jsonQuote v ++ "\n  \x7d\n\x7d\n".toList)))), ?_⟩
    rw [List.map_singleton, intercalate_singleton, line_shape]
  | cons kv2 rest =>
    refine ⟨jsonEscape k ++ ('"' :: (':' :: (' ' :: (jsonQuote v ++ (",\n".toList ++
      (List.intercalate (",\n".toList) ((kv2 :: rest).map bindingsMemberLine) ++
        "\n  \x7d\n\x7d\n".toList)))))), ?_⟩
    rw [show ((k, v) :: kv2 :: rest).map bindingsMemberLine =
        bindingsMemberLine (k, v) :: bindingsMemberLine kv2 :: rest.map bindingsMemberLine
      from rfl, intercalate_cons2, List.append_assoc, List.append_assoc]
    rw [show (bindingsMemberLine kv2 :: rest.map bindingsMemberLine) =
        ((kv2 :: rest).map bindingsMemberLine) from rfl]
    exact line_shape k v _

theorem jsonParseVal_serializeBindings (k v : Str) (kvs : List (Str × Str)) (f : Nat)
    (hf : kvs.length ≤ f) :
    jsonParseVal (f + 5) (serializeBindings ((k, v) :: kvs)) =
      some (.obj [("bindings".toList,
        .obj (((k, v) :: kvs).map (fun p => (p.1, Json.str p.2))))], "\n".toList) := by
  have hser : serializeBindings ((k, v) :: kvs) =
      "\x7b\n  \"bindings\": \x7b\n".toList ++
        (List.intercalate (",\n".toList) (((k, v) :: kvs).map bindingsMemberLine) ++
          "\n  \x7d\n\x7d\n".toList) := by
    simp [serializeBindings]
  obtain ⟨S, hS⟩ := intercalate_lines_shape k v kvs
  have hsk2 : skipJsonWs ('\n' ::
      (List.intercalate (",\n".toList) (((k, v) :: kvs).map bindingsMemberLine) ++
        "\n  \x7d\n\x7d\n".toList)) = '"' :: S := by
    rw [hS]
    rfl
  have hmem2 : jsonParseMembers (f + 2) ('"' :: S) =
      some (((k, v) :: kvs).map (fun p => (p.1, Json.str p.2)), "\n\x7d\n".toList) := by
    rw [← hsk2, jsonParseMembers_skip, jsonParseMembers_newline]
    exact parseMembers_serialized kvs (k, v) f hf
  have hval : jsonParseVal (f + 3)
      (' ' :: ('{' :: ('\n' ::
        (List.intercalate (",\n".toList) (((k, v) :: kvs).map bindingsMemberLine) ++
          "\n  \x7d\n\x7d\n".toList)))) =
      some (.obj (((k, v) :: kvs).map (fun p => (p.1, Json.str p.2))), "\n\x7d\n".toList) := by
    have eV : skipJsonWs (' ' :: ('{' :: ('\n' ::
        (List.intercalate (",\n".toList) (((k, v) :: kvs).map bindingsMemberLine) ++
          "\n  \x7d\n\x7d\n".toList)))) = '{' :: ('\n' ::
        (List.intercalate (",\n".toList) (((k, v) :: kvs).map bindingsMemberLine) ++
          "\n  \x7d\n\x7d\n".toList)) := rfl
    simp only [jsonParseVal, eV, hsk2]
    split
    · rename_i heq
      exact absurd heq (by simp)
    · rw [hmem2]
  have hkey : jsonParseStrBody ("bindings".toList ++ ('"' :: (':' :: (' ' :: ('{' :: ('\n' ::
      (List.intercalate (",\n".toList) (((k, v) :: kvs).map bindingsMemberLine) ++
        "\n  \x7d\n\x7d\n".toList))))))) = some ("bindings".toList, ':' :: (' ' :: ('{' :: ('\n' ::
      (List.intercalate (",\n".toList) (((k, v) :: kvs).map bindingsMemberLine) ++
        "\n  \x7d\n\x7d\n".toList))))) := rfl
  have eK1 : skipJsonWs ('"' :: ("bindings".toList ++ ('"' :: (':' :: (' ' :: ('{' :: ('\n' ::
      (List.intercalate (",\n".toList) (((k, v) :: kvs).map bindingsMemberLine) ++
        "\n  \x7d\n\x7d\n".toList)))))))) = '"' :: ("bindings".toList ++ ('"' :: (':' :: (' ' :: ('{' :: ('\n' ::
      (List.intercalate (",\n".toList) (((k, v) :: kvs).map bindingsMemberLine) ++
        "\n  \x7d\n\x7d\n".toList))))))) := rfl
  have eK2 : skipJsonWs (':' :: (' ' :: ('{' :: ('\n' ::
      (List.intercalate (",\n".toList) (((k, v) :: kvs).map bindingsMemberLine) ++
        "\n  \x7d\n\x7d\n".toList))))) = ':' :: (' ' :: ('{' :: ('\n' ::
      (List.intercalate (",\n".toList) (((k, v) :: kvs).map bindingsMemberLine) ++
        "\n  \x7d\n\x7d\n".toList)))) := rfl
  have eK3 : skipJsonWs ("\n\x7d\n".toList) = '}' :: "\n".toList := rfl
  have houter : jsonParseMembers (f + 4)
      ('"' :: ("bindings".toList ++ ('"' :: (':' :: (' ' :: ('{' :: ('\n' ::
        (List.intercalate (",\n".toList) (((k, v) :: kvs).map bindingsMemberLine) ++
          "\n  \x7d\n\x7d\n".toList)))))))) =
      some ([("bindings".toList,
        .obj (((k, v) :: kvs).map (fun p => (p.1, Json.str p.2))))], "\n".toList) := by
    simp only [jsonParseMembers, eK1, hkey, eK2, hval, eK3]
  rw [hser]
  have eT1 : skipJsonWs ("\x7b\n  \"bindings\": \x7b\n".toList ++
      (List.intercalate (",\n".toList) (((k, v) :: kvs).map bindingsMemberLine) ++
        "\n  \x7d\n\x7d\n".toList)) = '{' :: ("\n  \"bindings\": \x7b\n".toList ++
      (List.intercalate (",\n".toList) (((k, v) :: kvs).map bindingsMemberLine) ++
        "\n  \x7d\n\x7d\n".toList)) := rfl
  have eT2 : skipJsonWs ("\n  \"bindings\": \x7b\n".toList ++
      (List.intercalate (",\n".toList) (((k, v) :: kvs).map bindingsMemberLine) ++
        "\n  \x7d\n\x7d\n".toList)) = '"' :: ("bindings".toList ++ ('"' :: (':' :: (' ' :: ('{' :: ('\n' ::
      (List.intercalate (",\n".toList) (((k, v) :: kvs).map bindingsMemberLine) ++
        "\n  \x7d\n\x7d\n".toList))))))) := rfl
  simp only [jsonParseVal, eT1, eT2]
  split
  · rename_i heq
    exact absurd heq (by simp)
  · rw [houter]


theorem jsonParse_serializeBindings (k v : Str) (kvs : List (Str × Str)) :
    jsonParse (serializeBindings ((k, v) :: kvs)) =
      some (.obj [("bindings".toList,
        .obj (((k, v) :: kvs).map (fun p => (p.1, Json.str p.2))))]) := by
  have hlen := serializeBindings_length k v kvs
  have hf5 : (serializeBindings ((k, v) :: kvs)).length + 1 =
      ((serializeBindings ((k, v) :: kvs)).length - 4) + 5 := by omega
  unfold jsonParse
  rw [hf5, jsonParseVal_serializeBindings k v kvs _ (by omega)]
  rfl

theorem mapSet_append_of_not_mem {m : List (Str × Str)} {k : Str} (v : Str)
    (h : k ∉ m.map Prod.fst) : mapSet m k v = m ++ [(k, v)] := by
  induction m with
  | nil => rfl
  | cons kv t ih =>
    obtain ⟨k1, v1⟩ := kv
    simp only [List.map_cons, List.mem_cons] at h
    push_neg at h
    simp [mapSet, show ¬ k1 = k from fun he => h.1 he.symm, ih h.2]

theorem foldl_mapSet_self (kvs : List (Str × Str)) (hnd : (kvs.map Prod.fst).Nodup) :
    kvs.foldl (fun b p => mapSet b p.1 p.2) [] = kvs := by
  suffices h : ∀ acc, (∀ x ∈ kvs.map Prod.fst, x ∉ acc.map Prod.fst) →
      (kvs.map Prod.fst).Nodup →
      kvs.foldl (fun b p => mapSet b p.1 p.2) acc = acc ++ kvs by
    simpa using h [] (by simp) hnd
  clear hnd
  induction kvs with
  | nil =>
    intro acc _ _
    simp
  | cons p t ih =>
    intro acc hdisj hnd2
    simp only [List.foldl_cons]
    rw [mapSet_append_of_not_mem _ (hdisj p.1 (by simp))]
    rw [ih (acc ++ [(p.1, p.2)]) ?_ ?_]
    · simp
    · intro x hx
      simp only [List.map_append, List.mem_append]
      rintro (h | h)
      · exact hdisj x (by simp [hx]) (by simpa using h)
      · simp only [List.map_cons, List.nodup_cons] at hnd2
        have hxp : x = p.1 := by simpa using h
        exact hnd2.1 (hxp ▸ hx)
    · simp only [List.map_cons, List.nodup_cons] at hnd2
      exact hnd2.2

theorem foldl_congr_mapset (kvs0 : List (Str × Str)) (acc : List (Str × Str))
    (F : List (Str × Str) → Str × Json → List (Str × Str))
    (hF : ∀ out (p : Str × Str), p ∈ kvs0 → F out (p.1, Json.str p.2) = mapSet out p.1 p.2) :
    (kvs0.map (fun p => (p.1, Json.str p.2))).foldl F acc =
      kvs0.foldl (fun b p => mapSet b p.1 p.2) acc := by
  induction kvs0 generalizing acc with
  | nil => rfl
  | cons p t ih =>
    simp only [List.map_cons, List.foldl_cons, hF acc p (by simp)]
    exact ih _ (fun out q hq => hF out q (by simp [hq]))

theorem parseBindingsFile_serializeBindings (kvs : List (Str × Str))
    (hkeys : ∀ kv ∈ kvs, normalizeSessionSlot (some kv.1) = kv.1)
    (hvals : ∀ kv ∈ kvs, jsTrim kv.2 = kv.2 ∧ kv.2 ≠ [])
    (hnd : (kvs.map Prod.fst).Nodup) :
    parseBindingsFile (serializeBindings kvs) = kvs := by
  cases kvs with
  | nil => decide
  | cons kv rest =>
    obtain ⟨k, v⟩ := kv
    unfold parseBindingsFile
    rw [jsonParse_serializeBindings]
    show (((k, v) :: rest).map (fun p => (p.1, Json.str p.2))).foldl _ [] = (k, v) :: rest
    rw [foldl_congr_mapset ((k, v) :: rest) [] _ ?_]
    · exact foldl_mapSet_self _ hnd
    · intro out p hp
      have h1 := hkeys p hp
      have h2 := normalizeConversationId_trimmed (hvals p hp).1 (hvals p hp).2
      simp only [h2, h1]


theorem mapGet_persist (fs : FsState) (tmpPath path content : Str) :
    mapGet (applyFsOps fs [FsOp.write tmpPath content, FsOp.rename tmpPath path]) path =
      some content := by
  show mapGet (applyFsOp (applyFsOp fs (.write tmpPath content)) (.rename tmpPath path)) path =
    some content
  simp only [applyFsOp, mapGet_mapSet_self]

theorem mapDelete_present {m : List (Str × Str)} {k v : Str}
    (h : mapGet m k = some v) : (mapDelete m k).2 = true := by
  induction m with
  | nil => cases h
  | cons kv t ih =>
    obtain ⟨k1, v1⟩ := kv
    by_cases he : k1 = k
    · simp [mapDelete, he]
    · simp only [mapGet, if_neg he] at h
      simp [mapDelete, he, ih h]

theorem lastIndexOfAux_no_slash (ys : Str) (h : '/' ∉ ys) :
    ∀ (i : Nat) (best : Option Nat), lastIndexOfAux ys ['/'] i best = best := by
  induction ys with
  | nil =>
    intro i best
    rfl
  | cons c t ih =>
    intro i best
    simp only [List.mem_cons] at h
    push_neg at h
    have hc : ('/' == c) = false := beq_eq_false_iff_ne.mpr h.1
    simp [lastIndexOfAux, List.isPrefixOf, hc, ih h.2]

theorem lastIndexOfAux_append (xs ys : Str) (h : '/' ∉ ys) :
    ∀ (i : Nat) (best : Option Nat),
      lastIndexOfAux (xs ++ ys) ['/'] i best = lastIndexOfAux xs ['/'] i best := by
  induction xs with
  | nil =>
    intro i best
    simp only [List.nil_append]
    rw [lastIndexOfAux_no_slash ys h i best]
    rfl
  | cons c t ih =>
    intro i best
    show lastIndexOfAux (t ++ ys) ['/'] (i + 1)
        (if (['/'] : Str).isPrefixOf (c :: (t ++ ys)) then some i else best) =
      lastIndexOfAux t ['/'] (i + 1)
        (if (['/'] : Str).isPrefixOf (c :: t) then some i else best)
    have hpref : ((['/'] : Str).isPrefixOf (c :: (t ++ ys))) =
        ((['/'] : Str).isPrefixOf (c :: t)) := by
      simp [List.isPrefixOf]
    rw [hpref, ih]

theorem lastIndexOfAux_bound (xs : Str) :
    ∀ (i : Nat) (best : Option Nat) (j : Nat),
      (∀ b, best = some b → b < i) →
      lastIndexOfAux xs ['/'] i best = some j → j < i + xs.length := by
  induction xs with
  | nil =>
    intro i best j hb h
    have hbj : best = some j := by simpa [lastIndexOfAux] using h
    simpa using hb j hbj
  | cons c t ih =>
    intro i best j hb h
    have h' : lastIndexOfAux t ['/'] (i + 1)
        (if (['/'] : Str).isPrefixOf (c :: t) then some i else best) = some j := h
    have hb' : ∀ b, (if (['/'] : Str).isPrefixOf (c :: t) then some i else best) = some b →
        b < i + 1 := by
      intro b hbb
      by_cases hp : (['/'] : Str).isPrefixOf (c :: t)
      · rw [if_pos hp] at hbb
        cases hbb
        omega
      · rw [if_neg hp] at hbb
        exact Nat.lt_succ_of_lt (hb b hbb)
    have hlt := ih (i + 1) _ j hb' h'
    simp only [List.length_cons]
    omega

theorem dirname_append_suffix (p suffix : Str) (h : '/' ∉ suffix) :
    dirname (p ++ suffix) = dirname p := by
  unfold dirname jsLastIndexOf
  rw [show ("/".toList : Str) = ['/'] from rfl]
  rw [lastIndexOfAux_append p suffix h 0 none]
  cases hres : lastIndexOfAux p ['/'] 0 none with
  | none => rfl
  | some i =>
    cases i with
    | zero => rfl
    | succ i2 =>
      have hb := lastIndexOfAux_bound p 0 none (i2 + 1) (by intro b hb2; cases hb2) hres
      simp only [Nat.zero_add] at hb
      show (p ++ suffix).take (i2 + 1) = p.take (i2 + 1)
      exact List.take_append_of_le_length (by omega)

theorem store_load_get (filePath : Str) (fs : FsState) (raw : Str) (B : List (Str × Str))
    (hread : mapGet fs filePath = some raw)
    (hparse : parseBindingsFile raw = B)
    (hnd : (B.map Prod.fst).Nodup) (slot : Str) :
    ((SessionStore.new filePath).load fs).get slot =
      mapGet B (normalizeSessionSlot (some slot)) := by
  unfold SessionStore.get
  simp only [SessionStore.load, SessionStore.new]
  rw [if_neg (by simp)]
  rw [hread]
  simp only [hparse]
  rw [foldl_mapSet_self B hnd]


/-- C8: for a store whose bindings hold normalized slots, trimmed non-blank
ids and no duplicate keys, `set(slot, id)` with a non-blank id makes
`get(slot)` return the trimmed id; the persist issues exactly a write of the
full serialized `{"bindings": {...}}` map to `filePath . tmpSuffix . tmp`
followed by a rename over the target, and the temp file lives in the same
directory (for a slash-free suffix); a freshly constructed store that
`load()`s the persisted file sees the same binding; and after `delete(slot)`
a reopened store sees none. -/
theorem claim_C8_store_roundtrip (store : SessionStore) (fs : FsState)
    (tmp tmp2 slot conversationId : Str)
    (hkeys : ∀ kv ∈ store.bindings, normalizeSessionSlot (some kv.1) = kv.1)
    (hvals : ∀ kv ∈ store.bindings, jsTrim kv.2 = kv.2 ∧ kv.2 ≠ [])
    (hnd : (store.bindings.map Prod.fst).Nodup)
    (hid : jsTrim conversationId ≠ [])
    (htmp : '/' ∉ tmp) :
    (store.set fs tmp slot conversationId).2.2 =
      [FsOp.write (store.filePath ++ '.' :: tmp)
         (serializeBindings ((store.set fs tmp slot conversationId).1).bindings),
       FsOp.rename (store.filePath ++ '.' :: tmp) store.filePath] ∧
    dirname (store.filePath ++ '.' :: tmp) = dirname store.filePath ∧
    ((store.set fs tmp slot conversationId).1).get slot = some (jsTrim conversationId) ∧
    ((SessionStore.new store.filePath).load
        ((store.set fs tmp slot conversationId).2.1)).get slot = some (jsTrim conversationId) ∧
    ((SessionStore.new store.filePath).load
        ((((store.set fs tmp slot conversationId).1).delete
            ((store.set fs tmp slot conversationId).2.1) tmp2 slot).2.1)).get slot = none := by
  have hnc : normalizeConversationId (some conversationId) = some (jsTrim conversationId) := by
    rw [normalizeConversationId_some, if_neg (by simpa [List.isEmpty_iff] using hid)]
  have hset := store_set_some store fs tmp slot conversationId (jsTrim conversationId) hnc
  have hstore1 : (store.set fs tmp slot conversationId).1 =
      { store with bindings := mapSet store.bindings (normalizeSessionSlot (some slot)) (jsTrim conversationId) } := by
    rw [hset]
  have hfs1 : (store.set fs tmp slot conversationId).2.1 =
      applyFsOps fs (SessionStore.persistOps { store with bindings := mapSet store.bindings (normalizeSessionSlot (some slot)) (jsTrim conversationId) } tmp) := by
    rw [hset]
  have hops : (store.set fs tmp slot conversationId).2.2 =
      SessionStore.persistOps { store with bindings := mapSet store.bindings (normalizeSessionSlot (some slot)) (jsTrim conversationId) } tmp := by
    rw [hset]
  have hkeys1 : ∀ kv ∈ mapSet store.bindings (normalizeSessionSlot (some slot))
      (jsTrim conversationId), normalizeSessionSlot (some kv.1) = kv.1 := by
    intro kv hkv
    rcases mapSet_values_subset hkv with heq | hm
    · subst heq
      exact normalizeSessionSlot_out (some slot)
    · exact hkeys kv hm
  have hvals1 : ∀ kv ∈ mapSet store.bindings (normalizeSessionSlot (some slot))
      (jsTrim conversationId), jsTrim kv.2 = kv.2 ∧ kv.2 ≠ [] := by
    intro kv hkv
    rcases mapSet_values_subset hkv with heq | hm
    · subst heq
      exact ⟨jsTrim_idem conversationId, hid⟩
    · exact hvals kv hm
  have hnd1 : ((mapSet store.bindings (normalizeSessionSlot (some slot))
      (jsTrim conversationId)).map Prod.fst).Nodup := mapSet_nodup hnd
  have hget1 : mapGet (mapSet store.bindings (normalizeSessionSlot (some slot))
      (jsTrim conversationId)) (normalizeSessionSlot (some slot)) =
      some (jsTrim conversationId) := mapGet_mapSet_self _ _ _
  have hread1 : mapGet (applyFsOps fs (SessionStore.persistOps { store with bindings := mapSet store.bindings (normalizeSessionSlot (some slot)) (jsTrim conversationId) } tmp)) store.filePath =
      some (serializeBindings (mapSet store.bindings (normalizeSessionSlot (some slot))
        (jsTrim conversationId))) :=
    mapGet_persist fs _ _ _
  have hrt1 : parseBindingsFile (serializeBindings (mapSet store.bindings
      (normalizeSessionSlot (some slot)) (jsTrim conversationId))) =
      mapSet store.bindings (normalizeSessionSlot (some slot)) (jsTrim conversationId) :=
    parseBindingsFile_serializeBindings _ hkeys1 hvals1 hnd1
  refine ⟨?_, ?_, ?_, ?_, ?_⟩
  · rw [hops, hstore1]
    rfl
  · exact dirname_append_suffix store.filePath ('.' :: tmp) (by simpa using htmp)
  · rw [hstore1]
    exact hget1
  · rw [hfs1]
    rw [store_load_get store.filePath _ _ _ hread1 hrt1 hnd1 slot]
    exact hget1
  · rw [hstore1, hfs1]
    have htrue : (mapDelete (mapSet store.bindings (normalizeSessionSlot (some slot))
        (jsTrim conversationId)) (normalizeSessionSlot (some slot))).2 = true :=
      mapDelete_present hget1
    rw [store_delete_eq, if_pos htrue]
    have hkeys2 : ∀ kv ∈ (mapDelete (mapSet store.bindings (normalizeSessionSlot (some slot))
        (jsTrim conversationId)) (normalizeSessionSlot (some slot))).1,
        normalizeSessionSlot (some kv.1) = kv.1 :=
      fun kv hkv => hkeys1 kv (mapDelete_values_subset hkv)
    have hvals2 : ∀ kv ∈ (mapDelete (mapSet store.bindings (normalizeSessionSlot (some slot))
        (jsTrim conversationId)) (normalizeSessionSlot (some slot))).1,
        jsTrim kv.2 = kv.2 ∧ kv.2 ≠ [] :=
      fun kv hkv => hvals1 kv (mapDelete_values_subset hkv)
    have hnd2 : (((mapDelete (mapSet store.bindings (normalizeSessionSlot (some slot))
        (jsTrim conversationId)) (normalizeSessionSlot (some slot))).1).map Prod.fst).Nodup :=
      List.Nodup.sublist (mapDelete_keys_sublist _ _) hnd1
    have hread2 : mapGet (applyFsOps
        (applyFsOps fs (SessionStore.persistOps { store with bindings := mapSet store.bindings (normalizeSessionSlot (some slot)) (jsTrim conversationId) } tmp))
        (SessionStore.persistOps { store with bindings := (mapDelete (mapSet store.bindings (normalizeSessionSlot (some slot)) (jsTrim conversationId)) (normalizeSessionSlot (some slot))).1 } tmp2))
        store.filePath =
        some (serializeBindings ((mapDelete (mapSet store.bindings
          (normalizeSessionSlot (some slot)) (jsTrim conversationId))
          (normalizeSessionSlot (some slot))).1)) :=
      mapGet_persist _ _ _ _
    have hrt2 : parseBindingsFile (serializeBindings ((mapDelete (mapSet store.bindings
        (normalizeSessionSlot (some slot)) (jsTrim conversationId))
        (normalizeSessionSlot (some slot))).1)) =
        (mapDelete (mapSet store.bindings (normalizeSessionSlot (some slot))
          (jsTrim conversationId)) (normalizeSessionSlot (some slot))).1 :=
      parseBindingsFile_serializeBindings _ hkeys2 hvals2 hnd2
    rw [store_load_get store.filePath _ _ _ hread2 hrt2 hnd2 slot]
    exact mapGet_mapDelete_self _ _ hnd1

/-- Witness for C8 at a concrete store, slot and conversation id. -/
theorem claim_C8_store_roundtrip_witness :
    ((∀ kv ∈ [(("other".toList : Str), ("c9".toList : Str))],
        normalizeSessionSlot (some kv.1) = kv.1) ∧
     (∀ kv ∈ [(("other".toList : Str), ("c9".toList : Str))],
        jsTrim kv.2 = kv.2 ∧ kv.2 ≠ []) ∧
     (([(("other".toList : Str), ("c9".toList : Str))].map Prod.fst).Nodup) ∧
     jsTrim " conv-1 ".toList ≠ [] ∧ ('/' : Char) ∉ "1.2.u".toList) ∧
    (SessionStore.get ((SessionStore.set
        { filePath := "/data/bindings.json".toList,
          bindings := [("other".toList, "c9".toList)], loaded := true }
        [] "1.2.u".toList " Work ".toList " conv-1 ".toList).1) " Work ".toList =
      some (jsTrim " conv-1 ".toList)) ∧
    (SessionStore.get ((SessionStore.new "/data/bindings.json".toList).load
        ((SessionStore.set
          { filePath := "/data/bindings.json".toList,
            bindings := [("other".toList, "c9".toList)], loaded := true }
          [] "1.2.u".toList " Work ".toList " conv-1 ".toList).2.1)) " Work ".toList =
      some (jsTrim " conv-1 ".toList)) ∧
    (SessionStore.get ((SessionStore.new "/data/bindings.json".toList).load
        ((SessionStore.delete
          ((SessionStore.set
            { filePath := "/data/bindings.json".toList,
              bindings := [("other".toList, "c9".toList)], loaded := true }
            [] "1.2.u".toList " Work ".toList " conv-1 ".toList).1)
          ((SessionStore.set
            { filePath := "/data/bindings.json".toList,
              bindings := [("other".toList, "c9".toList)], loaded := true }
            [] "1.2.u".toList " Work ".toList " conv-1 ".toList).2.1)
          "3.4.w".toList " Work ".toList).2.1)) " Work ".toList = none) ∧
    dirname ("/data/bindings.json".toList ++ '.' :: "1.2.u".toList) =
      dirname "/data/bindings.json".toList := by
  refine ⟨⟨by decide, by decide, by decide, by decide, by decide⟩, ?_, ?_, ?_, ?_⟩
  · exact (claim_C8_store_roundtrip
      { filePath := "/data/bindings.json".toList,
        bindings := [("other".toList, "c9".toList)], loaded := true }
      [] "1.2.u".toList "3.4.w".toList " Work ".toList " conv-1 ".toList
      (by decide) (by decide) (by decide) (by decide) (by decide)).2.2.1
  · exact (claim_C8_store_roundtrip
      { filePath := "/data/bindings.json".toList,
        bindings := [("other".toList, "c9".toList)], loaded := true }
      [] "1.2.u".toList "3.4.w".toList " Work ".toList " conv-1 ".toList
      (by decide) (by decide) (by decide) (by decide) (by decide)).2.2.2.1
  · exact (claim_C8_store_roundtrip
      { filePath := "/data/bindings.json".toList,
        bindings := [("other".toList, "c9".toList)], loaded := true }
      [] "1.2.u".toList "3.4.w".toList " Work ".toList " conv-1 ".toList
      (by decide) (by decide) (by decide) (by decide) (by decide)).2.2.2.2
  · exact (claim_C8_store_roundtrip
      { filePath := "/data/bindings.json".toList,
        bindings := [("other".toList, "c9".toList)], loaded := true }
      [] "1.2.u".toList "3.4.w".toList " Work ".toList " conv-1 ".toList
      (by decide) (by decide) (by decide) (by decide) (by decide)).2.1


end Openclaw
